import Mathlib

/-
Verification of the JIRA MCP server (mcp_server.py): a shallow embedding of
the tool dispatcher and tracker client as pure Lean functions.  Network I/O
is modelled by an environment `Env` mapping each issued `Request` to the
response (or exception) the remote tracker produces, and every operation
returns, next to its result, the trace of HTTP requests it issued.  Python
exceptions are modelled with `Except PyExc`; the dispatcher's try/except is
the final `match` in `handle_call_tool`.
-/

namespace Jira

/-- JSON values as Python represents them after `json.loads`: `None`, `bool`,
`int`, `str`, `list`, `dict` (an insertion-ordered association list).  Numbers
are modelled as integers; float-valued JSON numbers are outside this
embedding. -/
inductive Json where
  | null : Json
  | bool (b : Bool) : Json
  | num (n : Int) : Json
  | str (s : String) : Json
  | arr (elems : List Json) : Json
  | obj (fields : List (String × Json)) : Json

/-- Decimal digit character, `0 ≤ d ≤ 9`. -/
def digitChar (d : Nat) : Char :=
  match d with
  | 0 => '0' | 1 => '1' | 2 => '2' | 3 => '3' | 4 => '4'
  | 5 => '5' | 6 => '6' | 7 => '7' | 8 => '8' | _ => '9'

/-- Decimal digits of `n`, most significant first, computed with explicit
fuel so that the definition is structural (`fuel > n` suffices). -/
def natCharsAux : Nat → Nat → List Char
  | 0, _ => []
  | fuel + 1, n =>
    if n < 10 then [digitChar n]
    else natCharsAux fuel (n / 10) ++ [digitChar (n % 10)]

/-- Decimal digits of `n`, most significant first. -/
def natChars (n : Nat) : List Char := natCharsAux (n + 1) n

/-- `str(i)` / `json.dumps(i)` for a Python int: optional minus sign and
decimal digits. -/
def intChars (i : Int) : List Char :=
  if i < 0 then '-' :: natChars i.natAbs else natChars i.natAbs

/-- `str(i)` for a Python int, as a string. -/
def intStr (i : Int) : String := String.mk (intChars i)

/-- Lowercase hexadecimal digit character, `0 ≤ d ≤ 15`. -/
def hexDigitChar (d : Nat) : Char :=
  match d with
  | 0 => '0' | 1 => '1' | 2 => '2' | 3 => '3' | 4 => '4'
  | 5 => '5' | 6 => '6' | 7 => '7' | 8 => '8' | 9 => '9'
  | 10 => 'a' | 11 => 'b' | 12 => 'c' | 13 => 'd' | 14 => 'e' | _ => 'f'

/-- The four hex digits of `n < 0x10000`, as `json.dumps` prints them. -/
def hex4 (n : Nat) : List Char :=
  [hexDigitChar (n / 4096 % 16), hexDigitChar (n / 256 % 16),
   hexDigitChar (n / 16 % 16), hexDigitChar (n % 16)]

/-- A `\uXXXX` escape sequence. -/
def uEscape (n : Nat) : List Char := '\\' :: 'u' :: hex4 n

/-- How `json.dumps` (default `ensure_ascii=True`) renders one character of a
string: `"` and `\` and the common control characters get two-character
escapes, other characters outside `0x20..0x7e` get `\uXXXX` escapes, with a
surrogate pair for code points above `0xffff`. -/
def escapeChar (c : Char) : List Char :=
  if c = '"' then ['\\', '"']
  else if c = '\\' then ['\\', '\\']
  else if c.toNat = 8 then ['\\', 'b']
  else if c.toNat = 9 then ['\\', 't']
  else if c.toNat = 10 then ['\\', 'n']
  else if c.toNat = 12 then ['\\', 'f']
  else if c.toNat = 13 then ['\\', 'r']
  else if c.toNat < 32 then uEscape c.toNat
  else if c.toNat ≤ 126 then [c]
  else if c.toNat < 65536 then uEscape c.toNat
  else uEscape (55296 + (c.toNat - 65536) / 1024) ++ uEscape (56320 + (c.toNat - 65536) % 1024)

/-- `escapeChar` mapped over a character list. -/
def escapeString : List Char → List Char
  | [] => []
  | c :: r => escapeChar c ++ escapeString r

/-- A JSON string literal as `json.dumps` prints it. -/
def quoteString (s : String) : List Char :=
  '"' :: (escapeString s.data ++ ['"'])

/-- `2 * lvl` spaces: the indentation `json.dumps(..., indent=2)` puts at
nesting level `lvl`. -/
def indentChars (lvl : Nat) : List Char := List.replicate (2 * lvl) ' '

mutual

/-- `json.dumps(v, indent=2)` at nesting level `lvl`, as a character list:
the dispatcher's text-formatting step for data-bearing results. -/
def dumpsVal (lvl : Nat) : Json → List Char
  | .null => "null".data
  | .bool true => "true".data
  | .bool false => "false".data
  | .num i => intChars i
  | .str s => quoteString s
  | .arr l =>
    if l.isEmpty then ['[', ']']
    else '[' :: '\n' :: (indentChars (lvl + 1) ++ dumpsElems (lvl + 1) l
      ++ '\n' :: (indentChars lvl ++ [']']))
  | .obj l =>
    if l.isEmpty then ['\x7b', '\x7d']
    else '\x7b' :: '\n' :: (indentChars (lvl + 1) ++ dumpsPairs (lvl + 1) l
      ++ '\n' :: (indentChars lvl ++ ['\x7d']))

/-- The elements of a JSON array, separated by `",\n" + indent`. -/
def dumpsElems (lvl : Nat) : List Json → List Char
  | [] => []
  | [e] => dumpsVal lvl e
  | e :: e2 :: rest =>
    dumpsVal lvl e ++ ',' :: '\n' :: (indentChars lvl ++ dumpsElems lvl (e2 :: rest))

/-- The key/value items of a JSON object, `"key": value`, separated by
`",\n" + indent`. -/
def dumpsPairs (lvl : Nat) : List (String × Json) → List Char
  | [] => []
  | [(k, v)] => quoteString k ++ ':' :: ' ' :: dumpsVal lvl v
  | (k, v) :: p2 :: rest =>
    quoteString k ++ ':' :: ' ' :: dumpsVal lvl v
      ++ ',' :: '\n' :: (indentChars lvl ++ dumpsPairs lvl (p2 :: rest))

end

/-- `json.dumps(v, indent=2)`: the serialization the dispatcher applies to
every data-bearing tracker response before wrapping it in a text result. -/
def dumps (j : Json) : String := String.mk (dumpsVal 0 j)

/-- No string occurs twice in the list. -/
def nodupKeys : List String → Bool
  | [] => true
  | k :: ks => (!ks.contains k) && nodupKeys ks

mutual

/-- Well-formedness of a JSON value as a Python object: every object's keys
are pairwise distinct (a Python dict cannot hold a duplicate key).  Every
value produced by `json.loads` satisfies this. -/
def wfVal : Json → Bool
  | .null => true
  | .bool _ => true
  | .num _ => true
  | .str _ => true
  | .arr l => wfList l
  | .obj l => nodupKeys (l.map Prod.fst) && wfPairs l

def wfList : List Json → Bool
  | [] => true
  | x :: xs => wfVal x && wfList xs

def wfPairs : List (String × Json) → Bool
  | [] => true
  | p :: ps => wfVal p.2 && wfPairs ps

end

/-- Whitespace as the JSON grammar knows it. -/
def isWsChar (c : Char) : Bool :=
  c = ' ' || c = '\t' || c = '\n' || c = '\r'

/-- Drop leading JSON whitespace. -/
def skipWs : List Char → List Char
  | [] => []
  | c :: r => if isWsChar c then skipWs r else c :: r

/-- Value of a hexadecimal digit character (upper or lower case). -/
def hexVal (c : Char) : Option Nat :=
  if 48 ≤ c.toNat ∧ c.toNat ≤ 57 then some (c.toNat - 48)
  else if 97 ≤ c.toNat ∧ c.toNat ≤ 102 then some (c.toNat - 87)
  else if 65 ≤ c.toNat ∧ c.toNat ≤ 70 then some (c.toNat - 55)
  else none

/-- The value of four hex digits. -/
def hex4Val (a b c d : Char) : Option Nat :=
  match hexVal a, hexVal b, hexVal c, hexVal d with
  | some x, some y, some z, some w => some (((x * 16 + y) * 16 + z) * 16 + w)
  | _, _, _, _ => none

/-- Value of a decimal digit character. -/
def digitVal (c : Char) : Nat := c.toNat - 48

/-- Greedily read decimal digits, accumulating their value onto `acc`;
returns the value and the unread remainder. -/
def parseDigits : List Char → Nat → Nat × List Char
  | [], acc => (acc, [])
  | c :: r, acc => if c.isDigit then parseDigits r (acc * 10 + digitVal c) else (acc, c :: r)

/-- Read four hex digits, returning their value and the remainder. -/
def readHex4 : List Char → Option (Nat × List Char)
  | a :: b :: c :: d :: r => (hex4Val a b c d).map (fun n => (n, r))
  | _ => none

/-- After a high surrogate: read a following `\uXXXX` low surrogate, if
present. -/
def readSurrogateTail (r : List Char) : Option (Nat × List Char) :=
  match r with
  | b :: u :: rest =>
    if b = '\\' ∧ u = 'u' then
      match readHex4 rest with
      | some (m, r4) => if 56320 ≤ m ∧ m ≤ 57343 then some (m, r4) else none
      | none => none
    else none
  | _ => none

/-- Decode a `\uXXXX` escape (the `\u` already consumed), combining a
surrogate pair into one code point as `json.loads` does. -/
def readUnicodeEscape (r : List Char) : Option (Char × List Char) :=
  match readHex4 r with
  | none => none
  | some (n, r3) =>
    if 55296 ≤ n ∧ n ≤ 56319 then
      match readSurrogateTail r3 with
      | some (m, r4) => some (Char.ofNat (65536 + (n - 55296) * 1024 + (m - 56320)), r4)
      | none => some (Char.ofNat n, r3)
    else some (Char.ofNat n, r3)

/-- Decode one backslash escape (the backslash already consumed). -/
def readEscape : List Char → Option (Char × List Char)
  | [] => none
  | e :: r2 =>
    if e = '"' then some ('"', r2)
    else if e = '\\' then some ('\\', r2)
    else if e = '/' then some ('/', r2)
    else if e = 'b' then some ('\x08', r2)
    else if e = 'f' then some ('\x0c', r2)
    else if e = 'n' then some ('\n', r2)
    else if e = 'r' then some ('\x0d', r2)
    else if e = 't' then some ('\t', r2)
    else if e = 'u' then readUnicodeEscape r2
    else none

/-- Parse the body of a JSON string literal (the opening quote already
consumed), handling the backslash escapes and surrogate pairs exactly as
`json.loads` does; modelled from the standard JSON string grammar, with
fuel bounding the number of decoded characters. -/
def parseStr : Nat → List Char → Option (List Char × List Char)
  | 0, _ => none
  | _ + 1, [] => none
  | fuel + 1, c :: r =>
    if c = '"' then some ([], r)
    else if c = '\\' then
      match readEscape r with
      | none => none
      | some (d, r2) => Option.map (fun pr => (d :: pr.1, pr.2)) (parseStr fuel r2)
    else if c.toNat < 32 then none
    else Option.map (fun pr => (c :: pr.1, pr.2)) (parseStr fuel r)

/-- Insert a key into a Python dict held as an ordered association list: an
existing key keeps its place and gets the new value, a new key is appended. -/
def objInsert : List (String × Json) → String → Json → List (String × Json)
  | [], k, v => [(k, v)]
  | (k1, v1) :: rest, k, v =>
    if k1 = k then (k1, v) :: rest else (k1, v1) :: objInsert rest k v

mutual

/-- Recursive-descent JSON value parser with fuel, modelled from `json.loads`
(restricted to the values `json.dumps` in this program emits: integer
numbers, no float or exponent forms). -/
def parseVal : Nat → List Char → Option (Json × List Char)
  | 0, _ => none
  | fuel + 1, s =>
    match skipWs s with
    | [] => none
    | c :: r =>
      if c = '"' then Option.map (fun pr => (Json.str (String.mk pr.1), pr.2)) (parseStr fuel r)
      else if c = 'n' then
        match r with
        | c1 :: c2 :: c3 :: r2 =>
          if c1 = 'u' ∧ c2 = 'l' ∧ c3 = 'l' then some (.null, r2) else none
        | _ => none
      else if c = 't' then
        match r with
        | c1 :: c2 :: c3 :: r2 =>
          if c1 = 'r' ∧ c2 = 'u' ∧ c3 = 'e' then some (.bool true, r2) else none
        | _ => none
      else if c = 'f' then
        match r with
        | c1 :: c2 :: c3 :: c4 :: r2 =>
          if c1 = 'a' ∧ c2 = 'l' ∧ c3 = 's' ∧ c4 = 'e' then some (.bool false, r2) else none
        | _ => none
      else if c = '[' then
        match skipWs r with
        | [] => none
        | c1 :: r1 =>
          if c1 = ']' then some (.arr [], r1)
          else Option.map (fun pr => (Json.arr pr.1, pr.2)) (parseArrItems fuel (c1 :: r1) [])
      else if c = '\x7b' then
        match skipWs r with
        | [] => none
        | c1 :: r1 =>
          if c1 = '\x7d' then some (.obj [], r1)
          else Option.map (fun pr => (Json.obj pr.1, pr.2)) (parseObjItems fuel (c1 :: r1) [])
      else if c = '-' then
        match r with
        | [] => none
        | d :: r2 =>
          if d.isDigit then
            let pr := parseDigits (d :: r2) 0
            some (.num (-(pr.1 : Int)), pr.2)
          else none
      else if c.isDigit then
        let pr := parseDigits (c :: r) 0
        some (.num (pr.1 : Int), pr.2)
      else none

/-- Array elements: value, then `,` and more elements or `]`. -/
def parseArrItems : Nat → List Char → List Json → Option (List Json × List Char)
  | 0, _, _ => none
  | fuel + 1, s, acc =>
    match parseVal fuel s with
    | none => none
    | some (v, r) =>
      match skipWs r with
      | [] => none
      | c :: r2 =>
        if c = ',' then parseArrItems fuel r2 (acc ++ [v])
        else if c = ']' then some (acc ++ [v], r2)
        else none

/-- Object items: `"key": value`, then `,` and more items or the closing
brace; items land in a dict, duplicate keys overwriting. -/
def parseObjItems : Nat → List Char → List (String × Json) → Option (List (String × Json) × List Char)
  | 0, _, _ => none
  | fuel + 1, s, acc =>
    match skipWs s with
    | [] => none
    | c :: r =>
      if c = '"' then
        match parseStr fuel r with
        | none => none
        | some (kcs, r2) =>
          match skipWs r2 with
          | [] => none
          | c2 :: r3 =>
            if c2 = ':' then
              match parseVal fuel r3 with
              | none => none
              | some (v, r4) =>
                let acc2 := objInsert acc (String.mk kcs) v
                match skipWs r4 with
                | [] => none
                | c3 :: r5 =>
                  if c3 = ',' then parseObjItems fuel r5 acc2
                  else if c3 = '\x7d' then some (acc2, r5)
                  else none
            else none
      else none

end

/-- `json.loads`: parse a complete JSON document, requiring only whitespace
after the value. -/
def loads (s : String) : Option Json :=
  match parseVal (s.data.length + 1) s.data with
  | some (v, r) => if (skipWs r).isEmpty then some v else none
  | none => none

/-- Python exceptions that can arise in this program: `KeyError` from a
missing dict key, `ValueError` from the uninitialized-client guard,
`TypeError`/`AttributeError` from operations on unexpected value shapes, and
`clientError` standing for any `aiohttp` transport or HTTP-status failure
(the environment chooses its message). -/
inductive PyExc where
  | keyError (key : String)
  | valueError (msg : String)
  | typeError (msg : String)
  | attributeError (msg : String)
  | clientError (msg : String)

/-- `str(e)` for an exception, as the dispatcher's error formatting uses it;
`str` of a `KeyError` is the `repr` of the key, hence the quotes. -/
def pyExcStr : PyExc → String
  | .keyError k => "'" ++ k ++ "'"
  | .valueError m => m
  | .typeError m => m
  | .attributeError m => m
  | .clientError m => m

/-- First-match lookup in an association list (Python dicts never hold a
key twice, so this is dict access for every value this program builds). -/
def slookup : List (String × Json) → String → Option Json
  | [], _ => none
  | (k1, v) :: rest, k => if k1 = k then some v else slookup rest k

/-- Python truthiness of a parsed-JSON value: `None`, `False`, `0`, and the
empty string, list and dict are falsy. -/
def pyTruthy : Json → Bool
  | .null => false
  | .bool b => b
  | .num n => n != 0
  | .str s => s != ""
  | .arr l => !l.isEmpty
  | .obj l => !l.isEmpty

mutual

/-- `repr(v)` for a parsed-JSON Python value, as an f-string renders a list
(e.g. the available-transitions list).  Strings are shown in single quotes
without escaping: faithful for the quote-free strings this program
interpolates. -/
def pyRepr : Json → String
  | .null => "None"
  | .bool true => "True"
  | .bool false => "False"
  | .num i => intStr i
  | .str s => "'" ++ s ++ "'"
  | .arr l => "[" ++ pyReprList l ++ "]"
  | .obj l => "\x7b" ++ pyReprPairs l ++ "\x7d"

def pyReprList : List Json → String
  | [] => ""
  | [x] => pyRepr x
  | x :: x2 :: rest => pyRepr x ++ ", " ++ pyReprList (x2 :: rest)

def pyReprPairs : List (String × Json) → String
  | [] => ""
  | [(k, v)] => "'" ++ k ++ "': " ++ pyRepr v
  | (k, v) :: p2 :: rest => "'" ++ k ++ "': " ++ pyRepr v ++ ", " ++ pyReprPairs (p2 :: rest)

end

/-- `str(v)` / f-string conversion of a parsed-JSON Python value. -/
def pyStr (j : Json) : String :=
  match j with
  | .str s => s
  | v => pyRepr v

/-- Lowercase an ASCII letter (the fragment of `str.lower` these
ASCII transition names exercise). -/
def lowerChar (c : Char) : Char :=
  if 'A' ≤ c ∧ c ≤ 'Z' then Char.ofNat (c.toNat + 32) else c

/-- `s.lower()` restricted to ASCII case mapping. -/
def asciiLower (s : String) : String := String.mk (s.data.map lowerChar)

/-- `v.lower()`: defined on strings, `AttributeError` otherwise. -/
def pyLower (j : Json) : Except PyExc String :=
  match j with
  | .str s => .ok (asciiLower s)
  | _ => .error (.attributeError "lower")

/-- `v[k]` subscription: dict lookup with `KeyError` on a missing key,
`TypeError` on a non-dict. -/
def pyIndex (j : Json) (k : String) : Except PyExc Json :=
  match j with
  | .obj l =>
    match slookup l k with
    | some v => .ok v
    | none => .error (.keyError k)
  | _ => .error (.typeError "object is not subscriptable")

/-- `v.get(k, default)`: defined on dicts, `AttributeError` otherwise. -/
def pyGet (j : Json) (k : String) (default : Json) : Except PyExc Json :=
  match j with
  | .obj l => .ok ((slookup l k).getD default)
  | _ => .error (.attributeError "get")

/-- Iterating a Python value with `for`: lists yield their elements, strings
their characters, dicts their keys; other values raise `TypeError`. -/
def pyIterList (j : Json) : Except PyExc (List Json)  :=
  match j with
  | .arr l => .ok l
  | .str s => .ok (s.data.map (fun c => Json.str (String.singleton c)))
  | .obj l => .ok (l.map (fun p => Json.str p.1))
  | _ => .error (.typeError "object is not iterable")

/-- The strings of a list of JSON values, or `none` if one is not a string. -/
def allStrings : List Json → Option (List String)
  | [] => some []
  | .str s :: rest => (allStrings rest).map (fun ss => s :: ss)
  | _ :: _ => none

/-- `sep.join(v)`: joins an iterable of strings; `TypeError` when an element
(or the value itself) is not iterable text. -/
def pyJoin (sep : String) (j : Json) : Except PyExc String :=
  match j with
  | .str s => .ok (String.intercalate sep (s.data.map String.singleton))
  | .arr l =>
    match allStrings l with
    | some ss => .ok (String.intercalate sep ss)
    | none => .error (.typeError "sequence item: expected str instance")
  | .obj l => .ok (String.intercalate sep (l.map Prod.fst))
  | _ => .error (.typeError "can only join an iterable")

/-- The tool-call argument mapping: a Python dict of argument name to
value. -/
abbrev Args : Type := List (String × Json)

/-- `arguments[k]`: `KeyError` when the argument is missing. -/
def item (args : Args) (k : String) : Except PyExc Json :=
  match slookup args k with
  | some v => .ok v
  | none => .error (.keyError k)

/-- `arguments.get(k, default)`. -/
def argGet (args : Args) (k : String) (default : Json) : Json :=
  (slookup args k).getD default

/-- One HTTP request as `_make_request` issues it: method, endpoint under
the fixed `/rest/api/3/` prefix, optional query parameters, optional JSON
body. -/
structure Request where
  method : String
  endpoint : String
  params : Option Json
  body : Option Json

/-- The remote tracker, as the shallow embedding sees it: each issued
request either returns a parsed JSON response or raises. -/
def Env : Type := Request → Except PyExc Json

/-- The client's mutable state: whether `initialize` has produced a session
and stored a config (`self.session` / `self.config` being non-`None`). -/
structure ClientState where
  session : Bool
  config : Bool

/-- `_make_request`: raises `ValueError` before any network activity when
the client is uninitialized; otherwise issues exactly one request (recorded
in the trace) and returns what the environment answers. -/
def make_request (st : ClientState) (env : Env) (method endpoint : String)
    (params body : Option Json) : Except PyExc Json × List Request :=
  if !st.session || !st.config then
    (.error (.valueError "JIRA client not initialized"), [])
  else
    let req : Request := ⟨method, endpoint, params, body⟩
    (env req, [req])

/-- `get_projects`. -/
def get_projects (st : ClientState) (env : Env) : Except PyExc Json × List Request :=
  make_request st env "GET" "project" none none

/-- `get_project_details`. -/
def get_project_details (st : ClientState) (env : Env) (project_key : Json) :
    Except PyExc Json × List Request :=
  make_request st env "GET" ("project/" ++ pyStr project_key) none none

/-- `search_issues`: builds the query-parameter dict, joining the field
allowlist with commas when one was (truthily) supplied and defaulting to
`*all`. -/
def search_issues (st : ClientState) (env : Env) (jql fields max_results : Json) :
    Except PyExc Json × List Request :=
  match (if pyTruthy fields then pyJoin "," fields else .ok "*all") with
  | .error e => (.error e, [])
  | .ok fs =>
    make_request st env "GET" "search"
      (some (.obj [("jql", jql), ("maxResults", max_results), ("fields", .str fs)])) none

/-- `get_issue`. -/
def get_issue (st : ClientState) (env : Env) (issue_key : Json) :
    Except PyExc Json × List Request :=
  make_request st env "GET" ("issue/" ++ pyStr issue_key) none none

/-- `create_issue`. -/
def create_issue (st : ClientState) (env : Env) (issue_data : Json) :
    Except PyExc Json × List Request :=
  make_request st env "POST" "issue" none (some issue_data)

/-- `update_issue`. -/
def update_issue (st : ClientState) (env : Env) (issue_key update_data : Json) :
    Except PyExc Json × List Request :=
  make_request st env "PUT" ("issue/" ++ pyStr issue_key) none (some update_data)

/-- `transition_issue`: one write submitting the transition id. -/
def transition_issue (st : ClientState) (env : Env) (issue_key transition_id : Json) :
    Except PyExc Json × List Request :=
  make_request st env "POST" ("issue/" ++ pyStr issue_key ++ "/transitions") none
    (some (.obj [("transition", .obj [("id", transition_id)])]))

/-- `get_issue_transitions`: fetches the currently available transitions and
extracts `result.get('transitions', [])`. -/
def get_issue_transitions (st : ClientState) (env : Env) (issue_key : Json) :
    Except PyExc Json × List Request :=
  match make_request st env "GET" ("issue/" ++ pyStr issue_key ++ "/transitions") none none with
  | (.error e, tr) => (.error e, tr)
  | (.ok result, tr) =>
    match pyGet result "transitions" (.arr []) with
    | .error e => (.error e, tr)
    | .ok ts => (.ok ts, tr)

/-- `add_comment`: wraps the comment text in the rich-text document body and
posts it. -/
def add_comment (st : ClientState) (env : Env) (issue_key comment : Json) :
    Except PyExc Json × List Request :=
  make_request st env "POST" ("issue/" ++ pyStr issue_key ++ "/comment") none
    (some (.obj [("body", .obj
      [("type", .str "doc"), ("version", .num 1),
       ("content", .arr [.obj
         [("type", .str "paragraph"),
          ("content", .arr [.obj [("text", comment), ("type", .str "text")]])]])])]))

/-- `get_issue_types`: project details, then `project.get('issueTypes', [])`. -/
def get_issue_types (st : ClientState) (env : Env) (project_key : Json) :
    Except PyExc Json × List Request :=
  match get_project_details st env project_key with
  | (.error e, tr) => (.error e, tr)
  | (.ok project, tr) =>
    match pyGet project "issueTypes" (.arr []) with
    | .error e => (.error e, tr)
    | .ok ts => (.ok ts, tr)

/-- `get_epics`: a fixed JQL search for epics, then
`result.get('issues', [])`. -/
def get_epics (st : ClientState) (env : Env) (project_key : Json) :
    Except PyExc Json × List Request :=
  let jql := "project = \"" ++ pyStr project_key ++ "\" AND issuetype = Epic ORDER BY created DESC"
  match search_issues st env (.str jql) .null (.num 50) with
  | (.error e, tr) => (.error e, tr)
  | (.ok result, tr) =>
    match pyGet result "issues" (.arr []) with
    | .error e => (.error e, tr)
    | .ok issues => (.ok issues, tr)

/-- One text/content result item as the dispatcher returns it
(`TextContent(type="text", text=...)`). -/
structure TextContent where
  type : String
  text : String

/-- A text result. -/
def mkText (s : String) : TextContent := ⟨"text", s⟩

/-- A tool descriptor from the static catalog: name, human description, the
declared argument names and which of them are required. -/
structure ToolDecl where
  name : String
  description : String
  properties : List String
  required : List String

/-- `handle_list_tools`: the static tool catalog. -/
def handle_list_tools : List ToolDecl :=
  [⟨"jira_get_projects", "Get all accessible JIRA projects", [], []⟩,
   ⟨"jira_get_project_details", "Get detailed information about a specific JIRA project",
     ["project_key"], ["project_key"]⟩,
   ⟨"jira_search_issues", "Search for issues using JQL (JIRA Query Language)",
     ["jql", "fields", "max_results"], ["jql"]⟩,
   ⟨"jira_get_issue", "Get detailed information about a specific issue",
     ["issue_key"], ["issue_key"]⟩,
   ⟨"jira_create_issue", "Create a new JIRA issue (story, task, bug, epic, etc.)",
     ["project_key", "issue_type", "summary", "description", "assignee", "priority",
      "labels", "parent_key"],
     ["project_key", "issue_type", "summary"]⟩,
   ⟨"jira_update_issue", "Update an existing JIRA issue",
     ["issue_key", "summary", "description", "assignee", "priority", "labels"],
     ["issue_key"]⟩,
   ⟨"jira_transition_issue",
     "Change the status of an issue (e.g., move from To Do to In Progress)",
     ["issue_key", "transition_name"], ["issue_key", "transition_name"]⟩,
   ⟨"jira_get_available_transitions", "Get all available status transitions for an issue",
     ["issue_key"], ["issue_key"]⟩,
   ⟨"jira_add_comment", "Add a comment to a JIRA issue",
     ["issue_key", "comment"], ["issue_key", "comment"]⟩,
   ⟨"jira_get_epics", "Get all epics in a project", ["project_key"], ["project_key"]⟩,
   ⟨"jira_get_issue_types", "Get available issue types for a project",
     ["project_key"], ["project_key"]⟩]

/-- The tool names tested, in order, by `handle_call_tool`'s if/elif
dispatch chain. -/
def dispatchNames : List String :=
  ["jira_get_projects", "jira_get_project_details", "jira_search_issues",
   "jira_get_issue", "jira_create_issue", "jira_update_issue",
   "jira_transition_issue", "jira_get_available_transitions", "jira_add_comment",
   "jira_get_epics", "jira_get_issue_types"]

/-- The `issue_data` document the create-issue branch builds: the three
required fields, then each optional field appended only when the caller
supplied the argument (`"x" in arguments` checks). -/
def build_create_issue_data (args : Args) : Except PyExc Json :=
  match item args "project_key" with
  | .error e => .error e
  | .ok pk =>
  match item args "issue_type" with
  | .error e => .error e
  | .ok it =>
  match item args "summary" with
  | .error e => .error e
  | .ok sm =>
  let fields : List (String × Json) :=
    [("project", .obj [("key", pk)]), ("issuetype", .obj [("name", it)]), ("summary", sm)]
  let fields := match slookup args "description" with
    | some d => fields ++ [("description", .obj
        [("type", .str "doc"), ("version", .num 1),
         ("content", .arr [.obj
           [("type", .str "paragraph"),
            ("content", .arr [.obj [("text", d), ("type", .str "text")]])]])])]
    | none => fields
  let fields := match slookup args "assignee" with
    | some a => fields ++ [("assignee", .obj [("name", a)])]
    | none => fields
  let fields := match slookup args "priority" with
    | some p => fields ++ [("priority", .obj [("name", p)])]
    | none => fields
  let fields := match slookup args "labels" with
    | some l => fields ++ [("labels", l)]
    | none => fields
  let fields := match slookup args "parent_key" with
    | some p => fields ++ [("parent", .obj [("key", p)])]
    | none => fields
  .ok (.obj [("fields", .obj fields)])

/-- The `update_data` document the update-issue branch builds: starts from
an empty fields dict and adds only the fields the caller supplied. -/
def build_update_data (args : Args) : Json :=
  let fields : List (String × Json) := []
  let fields := match slookup args "summary" with
    | some s => fields ++ [("summary", s)]
    | none => fields
  let fields := match slookup args "description" with
    | some d => fields ++ [("description", .obj
        [("type", .str "doc"), ("version", .num 1),
         ("content", .arr [.obj
           [("type", .str "paragraph"),
            ("content", .arr [.obj [("text", d), ("type", .str "text")]])]])])]
    | none => fields
  let fields := match slookup args "assignee" with
    | some a => fields ++ [("assignee", .obj [("name", a)])]
    | none => fields
  let fields := match slookup args "priority" with
    | some p => fields ++ [("priority", .obj [("name", p)])]
    | none => fields
  let fields := match slookup args "labels" with
    | some l => fields ++ [("labels", l)]
    | none => fields
  .obj [("fields", .obj fields)]

/-- The transition-branch loop: for each available transition, compare
`transition["name"].lower()` with `arguments["transition_name"].lower()`
and stop at the first match, returning its `transition["id"]`; `none` when
the loop falls through. -/
def find_transition_id (args : Args) : List Json → Except PyExc (Option Json)
  | [] => .ok none
  | t :: rest =>
    match pyIndex t "name" with
    | .error e => .error e
    | .ok nm =>
    match pyLower nm with
    | .error e => .error e
    | .ok lnm =>
    match item args "transition_name" with
    | .error e => .error e
    | .ok rq =>
    match pyLower rq with
    | .error e => .error e
    | .ok lrq =>
    if lnm = lrq then
      match pyIndex t "id" with
      | .error e => .error e
      | .ok tid => .ok (some tid)
    else
      find_transition_id args rest

/-- `[t["name"] for t in transitions]`. -/
def transition_names : List Json → Except PyExc (List Json)
  | [] => .ok []
  | t :: rest =>
    match pyIndex t "name" with
    | .error e => .error e
    | .ok nm =>
    match transition_names rest with
    | .error e => .error e
    | .ok rest2 => .ok (nm :: rest2)

/-- The body of `handle_call_tool`'s `try` block: dispatches on the tool
name, producing either the single result text or the first exception raised,
together with the trace of HTTP requests issued before returning. -/
def call_tool_body (st : ClientState) (env : Env) (name : String) (args : Args) :
    Except PyExc String × List Request :=
  if name = "jira_get_projects" then
    match get_projects st env with
    | (.error e, tr) => (.error e, tr)
    | (.ok projects, tr) => (.ok (dumps projects), tr)
  else if name = "jira_get_project_details" then
    match item args "project_key" with
    | .error e => (.error e, [])
    | .ok pk =>
      match get_project_details st env pk with
      | (.error e, tr) => (.error e, tr)
      | (.ok project, tr) => (.ok (dumps project), tr)
  else if name = "jira_search_issues" then
    match item args "jql" with
    | .error e => (.error e, [])
    | .ok jql =>
      match search_issues st env jql (argGet args "fields" .null)
          (argGet args "max_results" (.num 50)) with
      | (.error e, tr) => (.error e, tr)
      | (.ok result, tr) => (.ok (dumps result), tr)
  else if name = "jira_get_issue" then
    match item args "issue_key" with
    | .error e => (.error e, [])
    | .ok k =>
      match get_issue st env k with
      | (.error e, tr) => (.error e, tr)
      | (.ok issue, tr) => (.ok (dumps issue), tr)
  else if name = "jira_create_issue" then
    match build_create_issue_data args with
    | .error e => (.error e, [])
    | .ok issue_data =>
      match create_issue st env issue_data with
      | (.error e, tr) => (.error e, tr)
      | (.ok result, tr) => (.ok (dumps result), tr)
  else if name = "jira_update_issue" then
    let update_data := build_update_data args
    match item args "issue_key" with
    | .error e => (.error e, [])
    | .ok k =>
      match update_issue st env k update_data with
      | (.error e, tr) => (.error e, tr)
      | (.ok _, tr) => (.ok ("Issue " ++ pyStr k ++ " updated successfully"), tr)
  else if name = "jira_transition_issue" then
    match item args "issue_key" with
    | .error e => (.error e, [])
    | .ok k =>
      match get_issue_transitions st env k with
      | (.error e, tr) => (.error e, tr)
      | (.ok transitions, tr) =>
        match pyIterList transitions with
        | .error e => (.error e, tr)
        | .ok ts =>
          match find_transition_id args ts with
          | .error e => (.error e, tr)
          | .ok transition_id =>
            if !(match transition_id with | some v => pyTruthy v | none => false) then
              match transition_names ts with
              | .error e => (.error e, tr)
              | .ok available =>
                match item args "transition_name" with
                | .error e => (.error e, tr)
                | .ok rq =>
                  (.ok ("Transition '" ++ pyStr rq ++ "' not found. Available transitions: "
                    ++ pyRepr (.arr available)), tr)
            else
              match transition_id with
              | none => (.error (.valueError "unreachable"), tr)
              | some tid =>
                match transition_issue st env k tid with
                | (.error e, tr2) => (.error e, tr ++ tr2)
                | (.ok _, tr2) =>
                  match item args "transition_name" with
                  | .error e => (.error e, tr ++ tr2)
                  | .ok rq =>
                    (.ok ("Issue " ++ pyStr k ++ " transitioned to " ++ pyStr rq), tr ++ tr2)
  else if name = "jira_get_available_transitions" then
    match item args "issue_key" with
    | .error e => (.error e, [])
    | .ok k =>
      match get_issue_transitions st env k with
      | (.error e, tr) => (.error e, tr)
      | (.ok transitions, tr) => (.ok (dumps transitions), tr)
  else if name = "jira_add_comment" then
    match item args "issue_key" with
    | .error e => (.error e, [])
    | .ok k =>
      match item args "comment" with
      | .error e => (.error e, [])
      | .ok comment =>
        match add_comment st env k comment with
        | (.error e, tr) => (.error e, tr)
        | (.ok result, tr) => (.ok (dumps result), tr)
  else if name = "jira_get_epics" then
    match item args "project_key" with
    | .error e => (.error e, [])
    | .ok pk =>
      match get_epics st env pk with
      | (.error e, tr) => (.error e, tr)
      | (.ok epics, tr) => (.ok (dumps epics), tr)
  else if name = "jira_get_issue_types" then
    match item args "project_key" with
    | .error e => (.error e, [])
    | .ok pk =>
      match get_issue_types st env pk with
      | (.error e, tr) => (.error e, tr)
      | (.ok issue_types, tr) => (.ok (dumps issue_types), tr)
  else
    (.ok ("Unknown tool: " ++ name), [])

/-- `handle_call_tool`: the dispatch body runs inside a `try` whose
`except Exception` turns any raised failure into a textual error result, so
every invocation yields a (singleton) list of text contents. -/
def handle_call_tool (st : ClientState) (env : Env) (name : String) (args : Args) :
    List TextContent × List Request :=
  match call_tool_body st env name args with
  | (.ok s, tr) => ([mkText s], tr)
  | (.error e, tr) => ([mkText ("Error: " ++ pyExcStr e)], tr)

/-- A write request (mutating HTTP method). -/
def isWrite (r : Request) : Bool := r.method = "POST" || r.method = "PUT"

/-- Modelled from the spec: the fixed rich-text document wrapper for free
text — a document of type `"doc"`, version 1, holding exactly one paragraph
node which holds exactly one text run carrying the text unchanged. -/
def adf_document (t : Json) : Json :=
  .obj [("type", .str "doc"), ("version", .num 1),
        ("content", .arr [.obj
          [("type", .str "paragraph"),
           ("content", .arr [.obj [("text", t), ("type", .str "text")]])]])]

/-- An available transition as the tracker reports it: `{id, name}`. -/
def mkTransition (tid nm : String) : Json :=
  .obj [("id", .str tid), ("name", .str nm)]

/-- A transitions response carrying the given `(id, name)` pairs. -/
def transitions_response (trs : List (String × String)) : Json :=
  .obj [("transitions", .arr (trs.map (fun p => mkTransition p.1 p.2)))]

/-- Modelled from the spec: resolve a requested transition name against the
available `(id, name)` pairs by case-insensitive exact match on the display
name, taking the first match. -/
def findByName (trs : List (String × String)) (rq : String) : Option (String × String) :=
  trs.find? (fun p => asciiLower p.2 == asciiLower rq)

/-- The optional create-issue arguments and the field key each contributes
to the submitted document. -/
def optional_create_fields : List (String × String) :=
  [("description", "description"), ("assignee", "assignee"), ("priority", "priority"),
   ("labels", "labels"), ("parent_key", "parent")]

/-- A client that was never initialized. -/
def stNone : ClientState := ⟨false, false⟩

/-- An initialized client. -/
def stReady : ClientState := ⟨true, true⟩

/-- A tracker that answers every request with `null`. -/
def envNull : Env := fun _ => .ok .null

/-- A tracker whose transitions list holds one transition with an empty id. -/
def envFalsyId : Env := fun _ => .ok (transitions_response [("", "Done")])

/-- The list does not start with a decimal digit, so a number parse stops
in front of it. -/
def noDigitHead : List Char → Prop
  | [] => True
  | c :: _ => c.isDigit = false

/-- Every character of the list is JSON whitespace. -/
def allWs (l : List Char) : Prop := ∀ c ∈ l, isWsChar c = true

/- ------------------------------------------------------------------ -/
/- Theorems.                                                          -/
/- ------------------------------------------------------------------ -/

/-- The catalog's declared names, in order, are the dispatch chain's
names. -/
theorem catalog_names_eq : handle_list_tools.map ToolDecl.name = dispatchNames := by
  rfl

/-- A name outside the dispatch chain falls through every branch to the
unknown-tool result, with no request issued. -/
theorem call_tool_body_unknown (st : ClientState) (env : Env) (name : String) (args : Args)
    (h : name ∉ dispatchNames) :
    call_tool_body st env name args = (.ok ("Unknown tool: " ++ name), []) := by
  simp only [dispatchNames, List.mem_cons, List.not_mem_nil, or_false, not_or] at h
  obtain ⟨h1, h2, h3, h4, h5, h6, h7, h8, h9, h10, h11⟩ := h
  simp only [call_tool_body, if_neg h1, if_neg h2, if_neg h3, if_neg h4, if_neg h5,
    if_neg h6, if_neg h7, if_neg h8, if_neg h9, if_neg h10, if_neg h11]

/-- C7: every Tracker Client operation funnels through `_make_request`,
which, when the session or the config is absent, raises the
configuration `ValueError` and issues no network request — for every
method, endpoint and arguments. -/
theorem make_request_uninitialized (st : ClientState) (env : Env)
    (method endpoint : String) (params body : Option Json)
    (h : st.session = false ∨ st.config = false) :
    make_request st env method endpoint params body =
      (.error (.valueError "JIRA client not initialized"), []) := by
  unfold make_request
  rcases h with h | h <;> simp [h]

/-- Witness for C7: a client with a session but no config fails fast. -/
theorem make_request_uninitialized_witness :
    make_request ⟨true, false⟩ envNull "POST" "issue" none none =
      (.error (.valueError "JIRA client not initialized"), []) :=
  make_request_uninitialized ⟨true, false⟩ envNull "POST" "issue" none none (Or.inr rfl)

/-- C2: for every tool name and argument mapping (and every tracker
behavior) the dispatch handler returns a singleton list holding one text
content, and any exception the body raises is converted into the textual
`Error: ...` result — no exception escapes. -/
theorem handle_call_tool_total (st : ClientState) (env : Env) (name : String) (args : Args) :
    (∃ s, handle_call_tool st env name args =
      ([mkText s], (call_tool_body st env name args).2)) ∧
    (∀ e tr, call_tool_body st env name args = (.error e, tr) →
      handle_call_tool st env name args = ([mkText ("Error: " ++ pyExcStr e)], tr)) := by
  constructor
  · match h : call_tool_body st env name args with
    | (.ok s, tr) => exact ⟨s, by simp [handle_call_tool, h]⟩
    | (.error e, tr) => exact ⟨"Error: " ++ pyExcStr e, by simp [handle_call_tool, h]⟩
  · intro e tr h
    simp [handle_call_tool, h]

/-- Witness for C2: a call on an uninitialized client raises inside the
body and is converted into a textual error result. -/
theorem handle_call_tool_total_witness :
    handle_call_tool stNone envNull "jira_get_projects" [] =
      ([mkText "Error: JIRA client not initialized"], []) :=
  (handle_call_tool_total stNone envNull "jira_get_projects" []).2
    (.valueError "JIRA client not initialized") [] rfl

/-- C5: dispatching a tool name not declared in the catalog yields the
`Unknown tool` text and performs zero network calls, for every argument
mapping. -/
theorem unknown_tool_no_requests (st : ClientState) (env : Env) (name : String) (args : Args)
    (h : name ∉ handle_list_tools.map ToolDecl.name) :
    handle_call_tool st env name args = ([mkText ("Unknown tool: " ++ name)], []) := by
  rw [catalog_names_eq] at h
  simp [handle_call_tool, call_tool_body_unknown st env name args h]

/-- Witness for C5: `jira_bogus` is answered textually with no request. -/
theorem unknown_tool_no_requests_witness :
    handle_call_tool stReady envNull "jira_bogus" [("x", .num 1)] =
      ([mkText "Unknown tool: jira_bogus"], []) :=
  unknown_tool_no_requests stReady envNull "jira_bogus" [("x", .num 1)] (by decide)

/-- C9: catalog/dispatch parity — the catalog's names equal the dispatch
chain's names (one handler per declared name, in order), the names are
pairwise distinct, and every name outside them reaches only the
unknown-tool fallback. -/
theorem catalog_dispatch_parity :
    handle_list_tools.map ToolDecl.name = dispatchNames ∧
    dispatchNames.Nodup ∧
    (∀ name ∈ dispatchNames, ∃ args : Args,
      call_tool_body stReady envNull name args ≠ (.ok ("Unknown tool: " ++ name), [])) ∧
    (∀ st env name args, name ∉ dispatchNames →
      call_tool_body st env name args = (.ok ("Unknown tool: " ++ name), [])) := by
  refine ⟨catalog_names_eq, by decide, ?_, fun st env name args h =>
    call_tool_body_unknown st env name args h⟩
  intro name hname
  simp only [dispatchNames, List.mem_cons, List.not_mem_nil, or_false] at hname
  rcases hname with rfl | rfl | rfl | rfl | rfl | rfl | rfl | rfl | rfl | rfl | rfl <;>
    exact ⟨[], by
      intro h
      simp [call_tool_body, item, slookup, get_projects, get_project_details, get_issue,
        make_request, stReady, envNull, search_issues, pyTruthy, argGet,
        build_create_issue_data, get_issue_transitions, pyGet, pyStr, add_comment,
        get_epics, get_issue_types, update_issue, pyJoin, dumps] at h⟩

/-- Witness for C9: the fallback fires on a name outside the catalog. -/
theorem catalog_dispatch_parity_witness :
    call_tool_body stReady envNull "jira_delete_everything" [] =
      (.ok "Unknown tool: jira_delete_everything", []) :=
  catalog_dispatch_parity.2.2.2 stReady envNull "jira_delete_everything" [] (by decide)

/-- C3: with exactly the three required create-issue arguments the
submitted field document holds exactly the keys project, issuetype and
summary; in general, each optional field key is present in the submitted
document if and only if the caller supplied the corresponding argument. -/
theorem create_issue_fields_exact :
    (∀ pk it sm, build_create_issue_data
        [("project_key", pk), ("issue_type", it), ("summary", sm)] =
      .ok (.obj [("fields", .obj
        [("project", .obj [("key", pk)]), ("issuetype", .obj [("name", it)]),
         ("summary", sm)])])) ∧
    (∀ args pk it sm, slookup args "project_key" = some pk →
      slookup args "issue_type" = some it → slookup args "summary" = some sm →
      ∃ fs, build_create_issue_data args = .ok (.obj [("fields", .obj fs)]) ∧
        fs.map Prod.fst = ["project", "issuetype", "summary"] ++
          (optional_create_fields.filter
            (fun p => (slookup args p.1).isSome)).map Prod.snd) ∧
    (∀ st env args d, st.session = true → st.config = true →
      build_create_issue_data args = .ok d →
      (handle_call_tool st env "jira_create_issue" args).2 =
        [⟨"POST", "issue", none, some d⟩]) := by
  refine ⟨?_, ?_, ?_⟩
  · intro pk it sm
    rfl
  · intro args pk it sm h1 h2 h3
    simp only [build_create_issue_data, item, h1, h2, h3]
    cases hd : slookup args "description" <;>
      cases ha : slookup args "assignee" <;>
        cases hp : slookup args "priority" <;>
          cases hl : slookup args "labels" <;>
            cases hk : slookup args "parent_key" <;>
              exact ⟨_, rfl, by simp [optional_create_fields, hd, ha, hp, hl, hk]⟩
  · intro st env args d hs hc hb
    simp only [handle_call_tool, call_tool_body, reduceIte, hb,
      create_issue, make_request, hs, hc]
    cases env ⟨"POST", "issue", none, some d⟩ <;> simp

/-- Witness for C3: the minimal call produces exactly the three keys, and a
call that adds only labels gets exactly the labels key appended. -/
theorem create_issue_fields_exact_witness :
    build_create_issue_data
        [("project_key", .str "P"), ("issue_type", .str "Task"), ("summary", .str "S")] =
      .ok (.obj [("fields", .obj
        [("project", .obj [("key", .str "P")]),
         ("issuetype", .obj [("name", .str "Task")]),
         ("summary", .str "S")])]) ∧
    (∃ fs, build_create_issue_data
        [("project_key", .str "P"), ("issue_type", .str "Task"), ("summary", .str "S"),
         ("labels", .arr [.str "l1"])] =
      .ok (.obj [("fields", .obj fs)]) ∧
      fs.map Prod.fst = ["project", "issuetype", "summary"] ++
        (optional_create_fields.filter
          (fun p => (slookup
            [("project_key", Json.str "P"), ("issue_type", Json.str "Task"),
             ("summary", Json.str "S"), ("labels", Json.arr [Json.str "l1"])]
            p.1).isSome)).map Prod.snd) ∧
    (handle_call_tool stReady envNull "jira_create_issue"
        [("project_key", .str "P"), ("issue_type", .str "Task"), ("summary", .str "S")]).2 =
      [⟨"POST", "issue", none, some (.obj [("fields", .obj
        [("project", .obj [("key", .str "P")]),
         ("issuetype", .obj [("name", .str "Task")]),
         ("summary", .str "S")])])⟩] :=
  ⟨create_issue_fields_exact.1 (.str "P") (.str "Task") (.str "S"),
   create_issue_fields_exact.2.1 _ (.str "P") (.str "Task") (.str "S") rfl rfl rfl,
   create_issue_fields_exact.2.2 stReady envNull _ _ rfl rfl rfl⟩

/-- C4: an update-issue call supplying only `labels` (besides the issue
key) sends exactly one PUT whose fields document holds exactly the labels
key — no other field is sent, whatever the tracker answers. -/
theorem update_only_labels (st : ClientState) (env : Env) (args : Args) (k lv : Json)
    (hs : st.session = true) (hc : st.config = true)
    (hk : slookup args "issue_key" = some k)
    (h1 : slookup args "summary" = none) (h2 : slookup args "description" = none)
    (h3 : slookup args "assignee" = none) (h4 : slookup args "priority" = none)
    (h5 : slookup args "labels" = some lv) :
    (handle_call_tool st env "jira_update_issue" args).2 =
      [⟨"PUT", "issue/" ++ pyStr k, none,
        some (.obj [("fields", .obj [("labels", lv)])])⟩] := by
  have hb : build_update_data args = .obj [("fields", .obj [("labels", lv)])] := by
    simp [build_update_data, h1, h2, h3, h4, h5]
  simp only [handle_call_tool, call_tool_body, reduceIte, item, hk, hb,
    update_issue, make_request, hs, hc]
  cases env ⟨"PUT", "issue/" ++ pyStr k, none,
      some (.obj [("fields", .obj [("labels", lv)])])⟩ <;> simp

/-- Witness for C4: a concrete labels-only update sends one PUT with a
one-key fields document. -/
theorem update_only_labels_witness :
    (handle_call_tool stReady envNull "jira_update_issue"
        [("issue_key", .str "K-9"), ("labels", .arr [.str "a"])]).2 =
      [⟨"PUT", "issue/" ++ pyStr (.str "K-9"), none,
        some (.obj [("fields", .obj [("labels", .arr [.str "a"])])])⟩] :=
  update_only_labels stReady envNull _ (.str "K-9") (.arr [.str "a"])
    rfl rfl rfl rfl rfl rfl rfl rfl

/-- C10: an update-issue call supplying only the issue key still performs
exactly one PUT whose body is the empty fields document, and (when the
tracker accepts it) returns the updated-successfully confirmation. -/
theorem update_no_fields (st : ClientState) (env : Env) (args : Args) (k j : Json)
    (hs : st.session = true) (hc : st.config = true)
    (hk : slookup args "issue_key" = some k)
    (h1 : slookup args "summary" = none) (h2 : slookup args "description" = none)
    (h3 : slookup args "assignee" = none) (h4 : slookup args "priority" = none)
    (h5 : slookup args "labels" = none)
    (henv : env ⟨"PUT", "issue/" ++ pyStr k, none,
      some (.obj [("fields", .obj [])])⟩ = .ok j) :
    handle_call_tool st env "jira_update_issue" args =
      ([mkText ("Issue " ++ pyStr k ++ " updated successfully")],
       [⟨"PUT", "issue/" ++ pyStr k, none, some (.obj [("fields", .obj [])])⟩]) := by
  have hb : build_update_data args = .obj [("fields", .obj [])] := by
    simp [build_update_data, h1, h2, h3, h4, h5]
  simp [handle_call_tool, call_tool_body, item, hk, hb,
    update_issue, make_request, hs, hc, henv]

/-- Witness for C10: the empty update on a concrete issue. -/
theorem update_no_fields_witness :
    handle_call_tool stReady envNull "jira_update_issue" [("issue_key", .str "K-9")] =
      ([mkText ("Issue " ++ pyStr (.str "K-9") ++ " updated successfully")],
       [⟨"PUT", "issue/" ++ pyStr (.str "K-9"), none,
         some (.obj [("fields", .obj [])])⟩]) :=
  update_no_fields stReady envNull _ (.str "K-9") .null
    rfl rfl rfl rfl rfl rfl rfl rfl rfl

/-- C6: all three free-text call sites (create-issue description,
update-issue description, add-comment body) wrap the caller's text in the
same fixed rich-text document: type doc, version 1, one paragraph, one text
run, text unchanged — the structure `adf_document` spells out. -/
theorem rich_text_wrapper_shared :
    (∀ args d pk it sm, slookup args "project_key" = some pk →
      slookup args "issue_type" = some it → slookup args "summary" = some sm →
      slookup args "description" = some d →
      ∃ fs, build_create_issue_data args = .ok (.obj [("fields", .obj fs)]) ∧
        slookup fs "description" = some (adf_document d)) ∧
    (∀ args d, slookup args "description" = some d →
      ∃ fs, build_update_data args = .obj [("fields", .obj fs)] ∧
        slookup fs "description" = some (adf_document d)) ∧
    (∀ st env k c, st.session = true → st.config = true →
      (add_comment st env k c).2 =
        [⟨"POST", "issue/" ++ pyStr k ++ "/comment", none,
          some (.obj [("body", adf_document c)])⟩]) := by
  refine ⟨?_, ?_, ?_⟩
  · intro args d pk it sm h1 h2 h3 hd
    simp only [build_create_issue_data, item, h1, h2, h3, hd]
    cases ha : slookup args "assignee" <;>
      cases hp : slookup args "priority" <;>
        cases hl : slookup args "labels" <;>
          cases hk : slookup args "parent_key" <;>
            exact ⟨_, rfl, by simp [slookup, adf_document]⟩
  · intro args d hd
    simp only [build_update_data, hd]
    cases hs : slookup args "summary" <;>
      cases ha : slookup args "assignee" <;>
        cases hp : slookup args "priority" <;>
          cases hl : slookup args "labels" <;>
            exact ⟨_, rfl, by simp [slookup, adf_document]⟩
  · intro st env k c hs hc
    simp [add_comment, make_request, hs, hc, adf_document]

/-- Witness for C6: the three sites on concrete text. -/
theorem rich_text_wrapper_shared_witness :
    (∃ fs, build_create_issue_data
        [("project_key", .str "P"), ("issue_type", .str "Task"), ("summary", .str "S"),
         ("description", .str "free text")] =
      .ok (.obj [("fields", .obj fs)]) ∧
      slookup fs "description" = some (adf_document (.str "free text"))) ∧
    (∃ fs, build_update_data [("issue_key", .str "K"), ("description", .str "free text")] =
      .obj [("fields", .obj fs)] ∧
      slookup fs "description" = some (adf_document (.str "free text"))) ∧
    (add_comment stReady envNull (.str "K") (.str "free text")).2 =
      [⟨"POST", "issue/" ++ pyStr (.str "K") ++ "/comment", none,
        some (.obj [("body", adf_document (.str "free text"))])⟩] :=
  ⟨rich_text_wrapper_shared.1 _ (.str "free text") (.str "P") (.str "Task") (.str "S")
      rfl rfl rfl rfl,
   rich_text_wrapper_shared.2.1 _ (.str "free text") rfl,
   rich_text_wrapper_shared.2.2 stReady envNull (.str "K") (.str "free text") rfl rfl⟩

/-- `transition["name"]` on a well-shaped transition. -/
theorem pyIndex_mkTransition_name (tid nm : String) :
    pyIndex (mkTransition tid nm) "name" = .ok (.str nm) := rfl

/-- `transition["id"]` on a well-shaped transition. -/
theorem pyIndex_mkTransition_id (tid nm : String) :
    pyIndex (mkTransition tid nm) "id" = .ok (.str tid) := rfl

/-- The transition-branch loop over well-shaped `{id, name}` transitions
computes exactly the first case-insensitive name match. -/
theorem find_transition_id_spec (trs : List (String × String)) (args : Args) (rq : String)
    (h : slookup args "transition_name" = some (.str rq)) :
    find_transition_id args (trs.map (fun p => mkTransition p.1 p.2)) =
      .ok ((findByName trs rq).map (fun p => Json.str p.1)) := by
  induction trs with
  | nil => rfl
  | cons p rest ih =>
    obtain ⟨tid, nm⟩ := p
    simp only [List.map_cons, find_transition_id, pyIndex_mkTransition_name,
      pyIndex_mkTransition_id, pyLower, item, h]
    by_cases heq : asciiLower nm = asciiLower rq
    · simp [heq, findByName, List.find?]
    · rw [if_neg heq, ih]
      simp only [findByName, List.find?, beq_eq_false_iff_ne.mpr heq]

/-- The available-names comprehension over well-shaped transitions returns
every display name. -/
theorem transition_names_spec (trs : List (String × String)) :
    transition_names (trs.map (fun p => mkTransition p.1 p.2)) =
      .ok (trs.map (fun p => Json.str p.2)) := by
  induction trs with
  | nil => rfl
  | cons p rest ih =>
    obtain ⟨tid, nm⟩ := p
    simp only [List.map_cons, transition_names, pyIndex_mkTransition_name, ih]

/-- C1 (amended): the requested transition name is matched
case-insensitively and exactly against the available display names, taking
the first match; provided the matched transition's id is truthy (a
non-empty string), that id is submitted in exactly one write.  When no name
matches — or the first match's id is falsy — the operation returns the
not-found text enumerating all available display names and performs no
write. -/
theorem transition_by_name (st : ClientState) (env : Env) (args : Args)
    (k rq : String) (trs : List (String × String))
    (hs : st.session = true) (hc : st.config = true)
    (hk : slookup args "issue_key" = some (.str k))
    (hn : slookup args "transition_name" = some (.str rq))
    (henv : env ⟨"GET", "issue/" ++ k ++ "/transitions", none, none⟩ =
      .ok (transitions_response trs)) :
    (∀ p, findByName trs rq = some p → p.1 ≠ "" →
      (handle_call_tool st env "jira_transition_issue" args).2 =
        [⟨"GET", "issue/" ++ k ++ "/transitions", none, none⟩,
         ⟨"POST", "issue/" ++ k ++ "/transitions", none,
           some (.obj [("transition", .obj [("id", .str p.1)])])⟩]) ∧
    (∀ p, findByName trs rq = some p → p.1 = "" →
      handle_call_tool st env "jira_transition_issue" args =
        ([mkText ("Transition '" ++ rq ++ "' not found. Available transitions: "
            ++ pyRepr (.arr (trs.map (fun q => Json.str q.2))))],
         [⟨"GET", "issue/" ++ k ++ "/transitions", none, none⟩])) ∧
    (findByName trs rq = none →
      handle_call_tool st env "jira_transition_issue" args =
        ([mkText ("Transition '" ++ rq ++ "' not found. Available transitions: "
            ++ pyRepr (.arr (trs.map (fun q => Json.str q.2))))],
         [⟨"GET", "issue/" ++ k ++ "/transitions", none, none⟩])) := by
  have hget : get_issue_transitions st env (.str k) =
      (.ok (.arr (trs.map (fun p => mkTransition p.1 p.2))),
       [⟨"GET", "issue/" ++ k ++ "/transitions", none, none⟩]) := by
    simp [get_issue_transitions, make_request, hs, hc, pyStr, henv,
      transitions_response, pyGet, slookup]
  refine ⟨?_, ?_, ?_⟩
  · intro p hp hne
    have htr : pyTruthy (.str p.1) = true := by
      simp only [pyTruthy, bne_iff_ne, ne_eq, decide_not]
      simpa using hne
    cases henv2 : env ⟨"POST", "issue/" ++ k ++ "/transitions", none,
        some (.obj [("transition", .obj [("id", .str p.1)])])⟩ <;>
      simp [handle_call_tool, call_tool_body, item, hk, hget,
        pyIterList, find_transition_id_spec trs args rq hn, hp, htr,
        transition_issue, make_request, hs, hc, pyStr, hn, henv2]
  · intro p hp he
    have htr : pyTruthy (.str p.1) = false := by
      simp [pyTruthy, he]
    simp [handle_call_tool, call_tool_body, item, hk, hget,
      pyIterList, find_transition_id_spec trs args rq hn, hp, htr,
      transition_names_spec trs, hn, pyStr]
  · intro hp
    simp [handle_call_tool, call_tool_body, item, hk, hget,
      pyIterList, find_transition_id_spec trs args rq hn, hp,
      transition_names_spec trs, hn, pyStr]

/-- Witness for C1 (amended): on `[{id:"11",name:"In Progress"},
{id:"21",name:"Done"}]` the request `"in progress"` resolves to id `"11"`
and submits it in one POST after the GET, and `"Closed"` yields the
enumeration text with no write. -/
theorem transition_by_name_witness :
    ((handle_call_tool stReady
        (fun _ => .ok (transitions_response [("11", "In Progress"), ("21", "Done")]))
        "jira_transition_issue"
        [("issue_key", .str "K-1"), ("transition_name", .str "in progress")]).2 =
      [⟨"GET", "issue/K-1/transitions", none, none⟩,
       ⟨"POST", "issue/K-1/transitions", none,
         some (.obj [("transition", .obj [("id", .str "11")])])⟩]) ∧
    (handle_call_tool stReady
        (fun _ => .ok (transitions_response [("11", "In Progress"), ("21", "Done")]))
        "jira_transition_issue"
        [("issue_key", .str "K-1"), ("transition_name", .str "Closed")] =
      ([mkText ("Transition 'Closed' not found. Available transitions: "
          ++ pyRepr (.arr [.str "In Progress", .str "Done"]))],
       [⟨"GET", "issue/K-1/transitions", none, none⟩])) :=
  ⟨(transition_by_name stReady
      (fun _ => .ok (transitions_response [("11", "In Progress"), ("21", "Done")]))
      [("issue_key", .str "K-1"), ("transition_name", .str "in progress")]
      "K-1" "in progress"
      [("11", "In Progress"), ("21", "Done")] rfl rfl rfl rfl rfl).1
      ("11", "In Progress") rfl (by decide),
   (transition_by_name stReady
      (fun _ => .ok (transitions_response [("11", "In Progress"), ("21", "Done")]))
      [("issue_key", .str "K-1"), ("transition_name", .str "Closed")]
      "K-1" "Closed"
      [("11", "In Progress"), ("21", "Done")] rfl rfl rfl rfl rfl).2.2 rfl⟩

/-- Counterexample for C1 as stated: with one available transition
`{id:"", name:"Done"}` the requested name `"Done"` matches its display name
exactly, yet the code submits nothing and reports not-found (the falsy id
is treated as no match), so a matched transition is not always submitted. -/
theorem transition_by_name_counterexample :
    asciiLower "Done" = asciiLower "Done" ∧
    handle_call_tool stReady envFalsyId "jira_transition_issue"
        [("issue_key", .str "K-1"), ("transition_name", .str "Done")] =
      ([mkText "Transition 'Done' not found. Available transitions: ['Done']"],
       [⟨"GET", "issue/K-1/transitions", none, none⟩]) :=
  ⟨rfl, rfl⟩


theorem char_valid_nat (c : Char) :
    c.toNat < 55296 ∨ (57343 < c.toNat ∧ c.toNat < 1114112) := by
  have h := c.valid
  unfold UInt32.isValidChar Nat.isValidChar at h
  exact h

theorem ne_of_toNat_ne {c d : Char} (h : c.toNat ≠ d.toNat) : c ≠ d :=
  fun he => h (congrArg Char.toNat he)

theorem hexVal_hexDigitChar : ∀ d, d < 16 → hexVal (hexDigitChar d) = some d := by
  decide

theorem hex4Val_hex4 {n : Nat} (h : n < 65536) :
    hex4Val (hexDigitChar (n / 4096 % 16)) (hexDigitChar (n / 256 % 16))
      (hexDigitChar (n / 16 % 16)) (hexDigitChar (n % 16)) = some n := by
  have e : ((n / 4096 % 16 * 16 + n / 256 % 16) * 16 + n / 16 % 16) * 16 + n % 16 = n := by
    omega
  rw [hex4Val, hexVal_hexDigitChar _ (Nat.mod_lt _ (by omega)),
    hexVal_hexDigitChar _ (Nat.mod_lt _ (by omega)),
    hexVal_hexDigitChar _ (Nat.mod_lt _ (by omega)),
    hexVal_hexDigitChar _ (Nat.mod_lt _ (by omega))]
  exact congrArg some e

theorem eq_char_of_toNat {c : Char} {n : Nat} (h : c.toNat = n) : c = Char.ofNat n := by
  rw [← h, Char.ofNat_toNat]

theorem readHex4_uEscapeTail {n : Nat} (h : n < 65536) (s : List Char) :
    readHex4 (hex4 n ++ s) = some (n, s) := by
  rw [hex4]
  show readHex4 (_ :: _ :: _ :: _ :: s) = _
  rw [readHex4, hex4Val_hex4 h]
  rfl

theorem readSurrogateTail_pair {lo : Nat} (h1 : 56320 ≤ lo) (h2 : lo ≤ 57343)
    (s : List Char) : readSurrogateTail ('\\' :: 'u' :: (hex4 lo ++ s)) = some (lo, s) := by
  rw [readSurrogateTail]
  rw [if_pos ⟨rfl, rfl⟩, readHex4_uEscapeTail (by omega) s]
  exact if_pos ⟨h1, h2⟩

theorem readUnicodeEscape_single {n : Nat} (hn : n < 65536)
    (hns : ¬(55296 ≤ n ∧ n ≤ 56319)) (s : List Char) :
    readUnicodeEscape (hex4 n ++ s) = some (Char.ofNat n, s) := by
  rw [readUnicodeEscape, readHex4_uEscapeTail hn s]
  exact if_neg hns

theorem readUnicodeEscape_pair {hi lo : Nat}
    (hh1 : 55296 ≤ hi) (hh2 : hi ≤ 56319) (hl1 : 56320 ≤ lo) (hl2 : lo ≤ 57343)
    (s : List Char) :
    readUnicodeEscape (hex4 hi ++ ('\\' :: 'u' :: (hex4 lo ++ s))) =
      some (Char.ofNat (65536 + (hi - 55296) * 1024 + (lo - 56320)), s) := by
  rw [readUnicodeEscape, readHex4_uEscapeTail (by omega) _]
  show (if 55296 ≤ hi ∧ hi ≤ 56319 then _ else _) = _
  rw [if_pos ⟨hh1, hh2⟩, readSurrogateTail_pair hl1 hl2 s]

theorem readEscape_u (r : List Char) : readEscape ('u' :: r) = readUnicodeEscape r := rfl

theorem parseStr_cons_backslash {r r2 : List Char} {d : Char} (fuel : Nat)
    (h : readEscape r = some (d, r2)) :
    parseStr (fuel + 1) ('\\' :: r) =
      Option.map (fun pr => (d :: pr.1, pr.2)) (parseStr fuel r2) := by
  rw [parseStr, if_neg (by decide : ¬('\\' = '"')), if_pos rfl, h]

theorem parseStr_cons_plain {c : Char} (h1 : ¬c = '"') (h2 : ¬c = '\\')
    (h3 : ¬c.toNat < 32) (fuel : Nat) (r : List Char) :
    parseStr (fuel + 1) (c :: r) =
      Option.map (fun pr => (c :: pr.1, pr.2)) (parseStr fuel r) := by
  rw [parseStr, if_neg h1, if_neg h2, if_neg h3]

/-- Parsing the escape of one character prepends exactly that character. -/
theorem parseStr_escapeChar (c : Char) (s : List Char) (fuel : Nat) :
    parseStr (fuel + 1) (escapeChar c ++ s) =
      Option.map (fun pr => (c :: pr.1, pr.2)) (parseStr fuel s) := by
  have hval := char_valid_nat c
  by_cases h1 : c = '"'
  · subst h1
    exact parseStr_cons_backslash fuel rfl
  by_cases h2 : c = '\\'
  · subst h2
    exact parseStr_cons_backslash fuel rfl
  by_cases h3 : c.toNat = 8
  · rw [escapeChar, if_neg h1, if_neg h2, if_pos h3, eq_char_of_toNat h3]
    exact parseStr_cons_backslash fuel rfl
  by_cases h4 : c.toNat = 9
  · rw [escapeChar, if_neg h1, if_neg h2, if_neg h3, if_pos h4, eq_char_of_toNat h4]
    exact parseStr_cons_backslash fuel rfl
  by_cases h5 : c.toNat = 10
  · rw [escapeChar, if_neg h1, if_neg h2, if_neg h3, if_neg h4, if_pos h5,
      eq_char_of_toNat h5]
    exact parseStr_cons_backslash fuel rfl
  by_cases h6 : c.toNat = 12
  · rw [escapeChar, if_neg h1, if_neg h2, if_neg h3, if_neg h4, if_neg h5, if_pos h6,
      eq_char_of_toNat h6]
    exact parseStr_cons_backslash fuel rfl
  by_cases h7 : c.toNat = 13
  · rw [escapeChar, if_neg h1, if_neg h2, if_neg h3, if_neg h4, if_neg h5, if_neg h6,
      if_pos h7, eq_char_of_toNat h7]
    exact parseStr_cons_backslash fuel rfl
  by_cases h8 : c.toNat < 32
  · rw [escapeChar, if_neg h1, if_neg h2, if_neg h3, if_neg h4, if_neg h5, if_neg h6,
      if_neg h7, if_pos h8, uEscape]
    rw [show ('\\' :: 'u' :: hex4 c.toNat) ++ s = '\\' :: ('u' :: (hex4 c.toNat ++ s))
      from rfl]
    rw [parseStr_cons_backslash fuel
      (by rw [readEscape_u, readUnicodeEscape_single (by omega) (by omega) s,
        ← eq_char_of_toNat rfl])]
  by_cases h9 : c.toNat ≤ 126
  · rw [escapeChar, if_neg h1, if_neg h2, if_neg h3, if_neg h4, if_neg h5, if_neg h6,
      if_neg h7, if_neg h8, if_pos h9]
    rw [List.cons_append, List.nil_append]
    exact parseStr_cons_plain h1 h2 (by omega) fuel s
  by_cases h10 : c.toNat < 65536
  · rw [escapeChar, if_neg h1, if_neg h2, if_neg h3, if_neg h4, if_neg h5, if_neg h6,
      if_neg h7, if_neg h8, if_neg h9, if_pos h10, uEscape]
    rw [show ('\\' :: 'u' :: hex4 c.toNat) ++ s = '\\' :: ('u' :: (hex4 c.toNat ++ s))
      from rfl]
    rw [parseStr_cons_backslash fuel
      (by rw [readEscape_u, readUnicodeEscape_single h10 (by omega) s,
        ← eq_char_of_toNat rfl])]
  · rw [escapeChar, if_neg h1, if_neg h2, if_neg h3, if_neg h4, if_neg h5, if_neg h6,
      if_neg h7, if_neg h8, if_neg h9, if_neg h10, uEscape, uEscape]
    rw [show (('\\' :: 'u' :: hex4 (55296 + (c.toNat - 65536) / 1024)) ++
        ('\\' :: 'u' :: hex4 (56320 + (c.toNat - 65536) % 1024)) ++ s) =
      '\\' :: ('u' :: (hex4 (55296 + (c.toNat - 65536) / 1024) ++
        ('\\' :: 'u' :: (hex4 (56320 + (c.toNat - 65536) % 1024) ++ s)))) by simp]
    rw [parseStr_cons_backslash fuel
      (by rw [readEscape_u,
        readUnicodeEscape_pair (by omega) (by omega) (by omega) (by omega) s,
        show 65536 + (55296 + (c.toNat - 65536) / 1024 - 55296) * 1024 +
          (56320 + (c.toNat - 65536) % 1024 - 56320) = c.toNat by omega,
        Char.ofNat_toNat])]



/-- Parsing the escaped form of a string body, then the closing quote. -/
theorem parseStr_escapeString (cs : List Char) (rest : List Char) :
    ∀ fuel, cs.length + 1 ≤ fuel →
      parseStr fuel (escapeString cs ++ '"' :: rest) = some (cs, rest) := by
  induction cs with
  | nil =>
    intro fuel hf
    obtain ⟨g, rfl⟩ : ∃ g, fuel = g + 1 := ⟨fuel - 1, by omega⟩
    rw [escapeString, List.nil_append, parseStr, if_pos rfl]
  | cons c cs ih =>
    intro fuel hf
    obtain ⟨g, rfl⟩ : ∃ g, fuel = g + 1 := ⟨fuel - 1, by omega⟩
    rw [escapeString, List.append_assoc, parseStr_escapeChar c _ g,
      ih g (by simpa using Nat.lt_succ_iff.mp hf)]
    rfl

/-- Each escape produces at least one character. -/
theorem escapeChar_length_pos (c : Char) : 1 ≤ (escapeChar c).length := by
  rw [escapeChar]
  repeat' split
  all_goals simp [uEscape, hex4]

/-- The body escape is at least as long as the body. -/
theorem escapeString_length (cs : List Char) : cs.length ≤ (escapeString cs).length := by
  induction cs with
  | nil => simp [escapeString]
  | cons c cs ih =>
    rw [escapeString, List.length_append, List.length_cons]
    have := escapeChar_length_pos c
    omega

theorem digitChar_isDigit : ∀ d, d < 10 → (digitChar d).isDigit = true := by decide

theorem digitVal_digitChar : ∀ d, d < 10 → digitVal (digitChar d) = d := by decide

/-- The digits of `natCharsAux` are decimal digits. -/
theorem natCharsAux_digits : ∀ fuel n c, c ∈ natCharsAux fuel n → c.isDigit = true := by
  intro fuel
  induction fuel with
  | zero => intro n c hc; cases hc
  | succ f ih =>
    intro n c hc
    rw [natCharsAux] at hc
    by_cases h : n < 10
    · rw [if_pos h] at hc
      rcases List.mem_singleton.mp hc with rfl
      exact digitChar_isDigit n h
    · rw [if_neg h] at hc
      rcases List.mem_append.mp hc with h2 | h2
      · exact ih _ c h2
      · rcases List.mem_singleton.mp h2 with rfl
        exact digitChar_isDigit _ (Nat.mod_lt _ (by omega))

/-- `natCharsAux` output starts with a digit character. -/
theorem natCharsAux_head : ∀ fuel n, ∃ d t, natCharsAux (fuel + 1) n = digitChar d :: t ∧ d < 10 := by
  intro fuel
  induction fuel with
  | zero =>
    intro n
    by_cases h : n < 10
    · exact ⟨n, [], by rw [natCharsAux, if_pos h], h⟩
    · exact ⟨n % 10, [], by rw [natCharsAux, if_neg h, natCharsAux]; rfl, Nat.mod_lt _ (by omega)⟩
  | succ f ih =>
    intro n
    by_cases h : n < 10
    · exact ⟨n, [], by rw [natCharsAux, if_pos h], h⟩
    · obtain ⟨d, t, he, hd⟩ := ih (n / 10)
      exact ⟨d, t ++ [digitChar (n % 10)], by rw [natCharsAux, if_neg h, he]; rfl, hd⟩

/-- Reading a block of digit characters accumulates their value. -/
theorem parseDigits_append (l : List Char) (h : ∀ c ∈ l, c.isDigit = true) :
    ∀ rest acc, parseDigits (l ++ rest) acc =
      parseDigits rest (List.foldl (fun a c => a * 10 + digitVal c) acc l) := by
  induction l with
  | nil => intro rest acc; rfl
  | cons c t ih =>
    intro rest acc
    rw [List.cons_append, parseDigits, if_pos (h c (by simp)), List.foldl_cons]
    exact ih (fun d hd => h d (by simp [hd])) rest _

/-- Folding the digits of `n` onto `acc`. -/
theorem foldl_natCharsAux : ∀ fuel n acc, n < fuel →
    List.foldl (fun a c => a * 10 + digitVal c) acc (natCharsAux fuel n) =
      acc * 10 ^ (natCharsAux fuel n).length + n := by
  intro fuel
  induction fuel with
  | zero => intro n acc h; omega
  | succ f ih =>
    intro n acc h
    by_cases hn : n < 10
    · rw [natCharsAux, if_pos hn]
      simp [digitVal_digitChar n hn]
    · rw [natCharsAux, if_neg hn, List.foldl_append,
        ih (n / 10) acc (by omega)]
      simp only [List.foldl_cons, List.foldl_nil, List.length_append,
        List.length_singleton]
      rw [digitVal_digitChar _ (Nat.mod_lt _ (by omega))]
      rw [pow_succ]
      have := Nat.div_add_mod n 10
      ring_nf
      omega

/-- A non-digit head stops the digit reader. -/
theorem parseDigits_stop {rest : List Char} (h : noDigitHead rest) (acc : Nat) :
    parseDigits rest acc = (acc, rest) := by
  cases rest with
  | nil => rfl
  | cons c t =>
    rw [noDigitHead] at h
    rw [parseDigits, if_neg (by simp [h])]

/-- Reading back the decimal digits of `n` recovers `n`. -/
theorem parseDigits_natChars {rest : List Char} (h : noDigitHead rest) (n : Nat) :
    parseDigits (natChars n ++ rest) 0 = (n, rest) := by
  rw [natChars, parseDigits_append _ (fun c hc => natCharsAux_digits _ _ c hc),
    foldl_natCharsAux (n + 1) n 0 (by omega), parseDigits_stop h]
  simp




theorem skipWs_cons_not {c : Char} (h : isWsChar c = false) (s : List Char) :
    skipWs (c :: s) = c :: s := by
  simp [skipWs, h]

theorem skipWs_append {l : List Char} (h : allWs l) (s : List Char) :
    skipWs (l ++ s) = skipWs s := by
  induction l with
  | nil => rfl
  | cons c t ih =>
    have hc := h c (by simp)
    simp only [List.cons_append, skipWs, hc, if_true]
    exact ih (fun d hd => h d (by simp [hd]))

theorem allWs_indent (lvl : Nat) : allWs (indentChars lvl) := by
  intro c hc
  rw [indentChars, List.mem_replicate] at hc
  rw [hc.2]
  rfl

theorem allWs_cons {c : Char} {l : List Char} (h1 : isWsChar c = true) (h2 : allWs l) :
    allWs (c :: l) := by
  intro d hd
  rcases List.mem_cons.mp hd with h | h
  · rwa [h]
  · exact h2 d h

theorem isDigit_toNat {c : Char} (h : c.isDigit = true) :
    48 ≤ c.toNat ∧ c.toNat ≤ 57 := by
  simp [Char.isDigit] at h
  exact h

theorem parseVal_ws (fuel : Nat) {ws : List Char} (h : allWs ws) (s : List Char) :
    parseVal fuel (ws ++ s) = parseVal fuel s := by
  cases fuel with
  | zero => rfl
  | succ f => rw [parseVal, parseVal, skipWs_append h]

theorem parseVal_quote (fuel : Nat) (r : List Char) :
    parseVal (fuel + 1) ('"' :: r) =
      Option.map (fun pr => (Json.str (String.mk pr.1), pr.2)) (parseStr fuel r) := by
  rw [parseVal, skipWs_cons_not (by decide)]
  rfl

theorem parseVal_null (fuel : Nat) (r : List Char) :
    parseVal (fuel + 1) ('n' :: 'u' :: 'l' :: 'l' :: r) = some (.null, r) := by
  rw [parseVal, skipWs_cons_not (by decide)]
  rfl

theorem parseVal_true (fuel : Nat) (r : List Char) :
    parseVal (fuel + 1) ('t' :: 'r' :: 'u' :: 'e' :: r) = some (.bool true, r) := by
  rw [parseVal, skipWs_cons_not (by decide)]
  rfl

theorem parseVal_false (fuel : Nat) (r : List Char) :
    parseVal (fuel + 1) ('f' :: 'a' :: 'l' :: 's' :: 'e' :: r) = some (.bool false, r) := by
  rw [parseVal, skipWs_cons_not (by decide)]
  rfl

theorem parseVal_digit (fuel : Nat) {c : Char} (h : c.isDigit = true) (r : List Char) :
    parseVal (fuel + 1) (c :: r) =
      some (.num ((parseDigits (c :: r) 0).1 : Int), (parseDigits (c :: r) 0).2) := by
  obtain ⟨hl, hu⟩ := isDigit_toNat h
  have hws : isWsChar c = false := by
    simp only [isWsChar]
    simp only [Bool.or_eq_false_iff]
    refine ⟨⟨⟨?_, ?_⟩, ?_⟩, ?_⟩
    · exact decide_eq_false (ne_of_toNat_ne (show c.toNat ≠ 32 by omega))
    · exact decide_eq_false (ne_of_toNat_ne (show c.toNat ≠ 9 by omega))
    · exact decide_eq_false (ne_of_toNat_ne (show c.toNat ≠ 10 by omega))
    · exact decide_eq_false (ne_of_toNat_ne (show c.toNat ≠ 13 by omega))
  rw [parseVal, skipWs_cons_not hws]
  show (if c = '"' then _ else _) = _
  rw [if_neg (ne_of_toNat_ne (show c.toNat ≠ '"'.toNat by show c.toNat ≠ 34; omega)),
    if_neg (ne_of_toNat_ne (show c.toNat ≠ 110 by omega)),
    if_neg (ne_of_toNat_ne (show c.toNat ≠ 116 by omega)),
    if_neg (ne_of_toNat_ne (show c.toNat ≠ 102 by omega)),
    if_neg (ne_of_toNat_ne (show c.toNat ≠ 91 by omega)),
    if_neg (ne_of_toNat_ne (show c.toNat ≠ 123 by omega)),
    if_neg (ne_of_toNat_ne (show c.toNat ≠ 45 by omega)),
    if_pos h]



theorem parseVal_minus (fuel : Nat) {d : Char} (h : d.isDigit = true) (r : List Char) :
    parseVal (fuel + 1) ('-' :: d :: r) =
      some (.num (-((parseDigits (d :: r) 0).1 : Int)), (parseDigits (d :: r) 0).2) := by
  rw [parseVal, skipWs_cons_not (by decide)]
  show (if '-' = '"' then _ else _) = _
  rw [if_neg (by decide), if_neg (by decide), if_neg (by decide), if_neg (by decide),
    if_neg (by decide), if_neg (by decide), if_pos rfl]
  show (if d.isDigit then _ else _) = _
  rw [if_pos h]

theorem parseVal_lbracket_empty (fuel : Nat) {r r1 : List Char}
    (hskip : skipWs r = ']' :: r1) :
    parseVal (fuel + 1) ('[' :: r) = some (.arr [], r1) := by
  rw [parseVal, skipWs_cons_not (by decide)]
  show (match skipWs r with
    | [] => none
    | c1 :: r1 =>
      if c1 = ']' then some (Json.arr [], r1)
      else Option.map (fun pr : List Json × List Char => (Json.arr pr.1, pr.2))
        (parseArrItems fuel (c1 :: r1) [])) = _
  rw [hskip]
  show (if (']' : Char) = ']' then _ else _) = _
  rw [if_pos rfl]

theorem parseVal_lbracket (fuel : Nat) {r : List Char} {c1 : Char} {r1 : List Char}
    (hskip : skipWs r = c1 :: r1) (hne : ¬c1 = ']') :
    parseVal (fuel + 1) ('[' :: r) =
      Option.map (fun pr => (Json.arr pr.1, pr.2)) (parseArrItems fuel (c1 :: r1) []) := by
  rw [parseVal, skipWs_cons_not (by decide)]
  show (match skipWs r with
    | [] => none
    | c1 :: r1 =>
      if c1 = ']' then some (Json.arr [], r1)
      else Option.map (fun pr : List Json × List Char => (Json.arr pr.1, pr.2))
        (parseArrItems fuel (c1 :: r1) [])) = _
  rw [hskip]
  show (if c1 = ']' then _ else _) = _
  rw [if_neg hne]

theorem parseVal_lbrace_empty (fuel : Nat) {r r1 : List Char}
    (hskip : skipWs r = '\x7d' :: r1) :
    parseVal (fuel + 1) ('\x7b' :: r) = some (.obj [], r1) := by
  rw [parseVal, skipWs_cons_not (by decide)]
  show (match skipWs r with
    | [] => none
    | c1 :: r1 =>
      if c1 = '\x7d' then some (Json.obj [], r1)
      else Option.map (fun pr : List (String × Json) × List Char => (Json.obj pr.1, pr.2))
        (parseObjItems fuel (c1 :: r1) [])) = _
  rw [hskip]
  show (if ('\x7d' : Char) = '\x7d' then _ else _) = _
  rw [if_pos rfl]

theorem parseVal_lbrace (fuel : Nat) {r : List Char} {c1 : Char} {r1 : List Char}
    (hskip : skipWs r = c1 :: r1) (hne : ¬c1 = '\x7d') :
    parseVal (fuel + 1) ('\x7b' :: r) =
      Option.map (fun pr => (Json.obj pr.1, pr.2)) (parseObjItems fuel (c1 :: r1) []) := by
  rw [parseVal, skipWs_cons_not (by decide)]
  show (match skipWs r with
    | [] => none
    | c1 :: r1 =>
      if c1 = '\x7d' then some (Json.obj [], r1)
      else Option.map (fun pr : List (String × Json) × List Char => (Json.obj pr.1, pr.2))
        (parseObjItems fuel (c1 :: r1) [])) = _
  rw [hskip]
  show (if c1 = '\x7d' then _ else _) = _
  rw [if_neg hne]

theorem parseArrItems_comma (fuel : Nat) {s r r2 : List Char} {v : Json}
    (acc : List Json) (hv : parseVal fuel s = some (v, r)) (hskip : skipWs r = ',' :: r2) :
    parseArrItems (fuel + 1) s acc = parseArrItems fuel r2 (acc ++ [v]) := by
  rw [parseArrItems, hv]
  show (match skipWs r with
    | [] => none
    | c :: r2 =>
      if c = ',' then parseArrItems fuel r2 (acc ++ [v])
      else if c = ']' then some (acc ++ [v], r2) else none) = _
  rw [hskip]
  show (if (',' : Char) = ',' then _ else _) = _
  rw [if_pos rfl]

theorem parseArrItems_close (fuel : Nat) {s r r2 : List Char} {v : Json}
    (acc : List Json) (hv : parseVal fuel s = some (v, r)) (hskip : skipWs r = ']' :: r2) :
    parseArrItems (fuel + 1) s acc = some (acc ++ [v], r2) := by
  rw [parseArrItems, hv]
  show (match skipWs r with
    | [] => none
    | c :: r2 =>
      if c = ',' then parseArrItems fuel r2 (acc ++ [v])
      else if c = ']' then some (acc ++ [v], r2) else none) = _
  rw [hskip]
  show (if (']' : Char) = ',' then _ else _) = _
  rw [if_neg (by decide), if_pos rfl]

theorem parseObjItems_comma (fuel : Nat) {s r r2 r3 r4 r5 : List Char}
    {kcs : List Char} {v : Json} (acc : List (String × Json))
    (hq : skipWs s = '"' :: r) (hk : parseStr fuel r = some (kcs, r2))
    (hc : skipWs r2 = ':' :: r3) (hv : parseVal fuel r3 = some (v, r4))
    (hskip : skipWs r4 = ',' :: r5) :
    parseObjItems (fuel + 1) s acc =
      parseObjItems fuel r5 (objInsert acc (String.mk kcs) v) := by
  rw [parseObjItems, hq]
  show (if ('"' : Char) = '"' then _ else _) = _
  rw [if_pos rfl, hk]
  show (match skipWs r2 with
    | [] => none
    | c2 :: r3 => _) = _
  rw [hc]
  show (if (':' : Char) = ':' then _ else _) = _
  rw [if_pos rfl, hv]
  show (match skipWs r4 with
    | [] => none
    | c3 :: r5 => _) = _
  rw [hskip]
  show (if (',' : Char) = ',' then _ else _) = _
  rw [if_pos rfl]

theorem parseObjItems_close (fuel : Nat) {s r r2 r3 r4 r5 : List Char}
    {kcs : List Char} {v : Json} (acc : List (String × Json))
    (hq : skipWs s = '"' :: r) (hk : parseStr fuel r = some (kcs, r2))
    (hc : skipWs r2 = ':' :: r3) (hv : parseVal fuel r3 = some (v, r4))
    (hskip : skipWs r4 = '\x7d' :: r5) :
    parseObjItems (fuel + 1) s acc = some (objInsert acc (String.mk kcs) v, r5) := by
  rw [parseObjItems, hq]
  show (if ('"' : Char) = '"' then _ else _) = _
  rw [if_pos rfl, hk]
  show (match skipWs r2 with
    | [] => none
    | c2 :: r3 => _) = _
  rw [hc]
  show (if (':' : Char) = ':' then _ else _) = _
  rw [if_pos rfl, hv]
  show (match skipWs r4 with
    | [] => none
    | c3 :: r5 => _) = _
  rw [hskip]
  show (if ('\x7d' : Char) = ',' then _ else _) = _
  rw [if_neg (by decide), if_pos rfl]




theorem digitChar_good : ∀ d, d < 10 →
    isWsChar (digitChar d) = false ∧ digitChar d ≠ ']' ∧ digitChar d ≠ '\x7d' := by
  decide

/-- Serialized values start with a non-whitespace character that is not a
closing bracket. -/
theorem dumps_head (lvl : Nat) (v : Json) :
    ∃ c t, dumpsVal lvl v = c :: t ∧ isWsChar c = false ∧ c ≠ ']' ∧ c ≠ '\x7d' := by
  have hset : ∀ c : Char, c ∈ ['n', 't', 'f', '"', '[', '\x7b', '-'] →
      isWsChar c = false ∧ c ≠ ']' ∧ c ≠ '\x7d' := by decide
  cases v with
  | null =>
    exact ⟨'n', _, rfl, hset 'n' (by decide)⟩
  | bool b =>
    cases b
    case false => exact ⟨'f', _, rfl, hset 'f' (by decide)⟩
    case true => exact ⟨'t', _, rfl, hset 't' (by decide)⟩
  | num i =>
    by_cases hi : i < 0
    · refine ⟨'-', natChars i.natAbs, ?_, hset '-' (by decide)⟩
      rw [dumpsVal, intChars, if_pos hi]
    · obtain ⟨d, t, he, hd⟩ := natCharsAux_head i.natAbs i.natAbs
      obtain ⟨g1, g2, g3⟩ := digitChar_good d hd
      exact ⟨digitChar d, t, by rw [dumpsVal, intChars, if_neg hi, natChars, he], g1, g2, g3⟩
  | str s =>
    exact ⟨'"', _, rfl, hset '"' (by decide)⟩
  | arr l =>
    cases l
    case nil => exact ⟨'[', [']'], by rw [dumpsVal]; rfl, hset '[' (by decide)⟩
    case cons e es =>
      refine ⟨'[', '\n' :: (indentChars (lvl + 1) ++ dumpsElems (lvl + 1) (e :: es)
        ++ '\n' :: (indentChars lvl ++ [']'])), ?_, hset '[' (by decide)⟩
      rw [dumpsVal, if_neg (by simp)]
  | obj l =>
    cases l
    case nil => exact ⟨'\x7b', ['\x7d'], by rw [dumpsVal]; rfl, hset '\x7b' (by decide)⟩
    case cons p ps =>
      refine ⟨'\x7b', '\n' :: (indentChars (lvl + 1) ++ dumpsPairs (lvl + 1) (p :: ps)
        ++ '\n' :: (indentChars lvl ++ ['\x7d'])), ?_, hset '\x7b' (by decide)⟩
      rw [dumpsVal, if_neg (by simp)]

/-- Serialized nonempty element lists start like their first element. -/
theorem dumpsElems_head (lvl : Nat) (e : Json) (es : List Json) :
    ∃ c t, dumpsElems lvl (e :: es) = c :: t ∧ isWsChar c = false ∧ c ≠ ']' ∧ c ≠ '\x7d' := by
  obtain ⟨c, t, he, h1, h2, h3⟩ := dumps_head lvl e
  cases es with
  | nil => exact ⟨c, t, by rw [dumpsElems, he], h1, h2, h3⟩
  | cons e2 es2 =>
    exact ⟨c, _, by rw [dumpsElems, he, List.cons_append], h1, h2, h3⟩

/-- Serialized values are nonempty. -/
theorem dumps_length_pos (lvl : Nat) (v : Json) : 1 ≤ (dumpsVal lvl v).length := by
  obtain ⟨c, t, he, -⟩ := dumps_head lvl v
  rw [he]
  simp

/-- Inserting a fresh key into a dict appends it. -/
theorem objInsert_append {acc : List (String × Json)} {k : String} (v : Json)
    (h : ∀ p ∈ acc, p.1 ≠ k) : objInsert acc k v = acc ++ [(k, v)] := by
  induction acc with
  | nil => rfl
  | cons p t ih =>
    obtain ⟨k1, v1⟩ := p
    rw [objInsert, if_neg (h (k1, v1) (by simp)), ih (fun q hq => h q (by simp [hq]))]
    rfl

theorem nodupKeys_head_fresh {l1 : List String} {k : String} {l2 : List String}
    (h : nodupKeys (l1 ++ k :: l2) = true) : ∀ x ∈ l1, x ≠ k := by
  induction l1 with
  | nil => intro x hx; cases hx
  | cons a t ih =>
    rw [List.cons_append, nodupKeys, Bool.and_eq_true] at h
    intro x hx
    rcases List.mem_cons.mp hx with rfl | hx2
    · have := h.1
      simp only [Bool.not_eq_true'] at this
      have hnm : x ∉ t ++ k :: l2 := by simpa using this
      intro hk
      exact hnm (by simp [hk])
    · exact ih h.2 x hx2

theorem nodupKeys_tail {l1 : List String} {k : String} {l2 : List String}
    (h : nodupKeys (l1 ++ k :: l2) = true) :
    nodupKeys ((l1 ++ [k]) ++ l2) = true := by
  have : (l1 ++ [k]) ++ l2 = l1 ++ k :: l2 := by simp
  rw [this]
  exact h

theorem noDigitHead_cons {c : Char} (X : List Char) (h : c.isDigit = false) :
    noDigitHead (c :: X) := h




theorem allWs_nil : allWs [] := by
  intro c hc
  cases hc

theorem len_quoteString (s : String) :
    (quoteString s).length = (escapeString s.data).length + 2 := by
  rw [quoteString]
  simp

theorem len_dumpsVal_arr (lvl : Nat) (e : Json) (es : List Json) :
    (dumpsVal lvl (.arr (e :: es))).length =
      (dumpsElems (lvl + 1) (e :: es)).length + 4 * lvl + 6 := by
  rw [dumpsVal, if_neg (by simp)]
  simp [indentChars]
  omega

theorem len_dumpsVal_obj (lvl : Nat) (p : String × Json) (ps : List (String × Json)) :
    (dumpsVal lvl (.obj (p :: ps))).length =
      (dumpsPairs (lvl + 1) (p :: ps)).length + 4 * lvl + 6 := by
  rw [dumpsVal, if_neg (by simp)]
  simp [indentChars]
  omega

theorem len_dumpsElems_cons (lvl : Nat) (e e2 : Json) (es : List Json) :
    (dumpsElems lvl (e :: e2 :: es)).length =
      (dumpsVal lvl e).length + 2 * lvl + 2 + (dumpsElems lvl (e2 :: es)).length := by
  rw [dumpsElems]
  simp [indentChars]
  omega

theorem len_dumpsPairs_single (lvl : Nat) (k : String) (v : Json) :
    (dumpsPairs lvl [(k, v)]).length =
      (escapeString k.data).length + 4 + (dumpsVal lvl v).length := by
  rw [dumpsPairs, quoteString]
  simp
  omega

theorem len_dumpsPairs_cons (lvl : Nat) (k : String) (v : Json) (p2 : String × Json)
    (ps : List (String × Json)) :
    (dumpsPairs lvl ((k, v) :: p2 :: ps)).length =
      (escapeString k.data).length + 4 + (dumpsVal lvl v).length + 2 * lvl + 2 +
        (dumpsPairs lvl (p2 :: ps)).length := by
  rw [dumpsPairs, quoteString]
  simp [indentChars]
  omega




/-- Serialized nonempty member lists start with the key quote. -/
theorem dumpsPairs_head (lvl : Nat) (k : String) (v : Json) (ps : List (String × Json)) :
    ∃ c t, dumpsPairs lvl ((k, v) :: ps) = c :: t ∧ isWsChar c = false ∧
      c ≠ ']' ∧ c ≠ '\x7d' := by
  cases ps with
  | nil =>
    refine ⟨'"', (escapeString k.data ++ ['"']) ++ ':' :: ' ' :: dumpsVal lvl v,
      ?_, by decide, by decide, by decide⟩
    rw [dumpsPairs, quoteString]
    rfl
  | cons p2 ps2 =>
    refine ⟨'"', (escapeString k.data ++ ['"']) ++ ':' :: ' ' :: dumpsVal lvl v
      ++ ',' :: '\n' :: (indentChars lvl ++ dumpsPairs lvl (p2 :: ps2)),
      ?_, by decide, by decide, by decide⟩
    rw [dumpsPairs, quoteString]
    simp

/-- The inversion invariant: with enough fuel, parsing a serialized value
(or a serialized element/pair sequence inside its container) consumes
exactly the serialization and returns the original value. -/
theorem parse_dumps (fuel : Nat) :
    (∀ v lvl rest, wfVal v = true → (dumpsVal lvl v).length ≤ fuel → noDigitHead rest →
      parseVal fuel (dumpsVal lvl v ++ rest) = some (v, rest)) ∧
    (∀ e es lvlE lvlC acc ws rest, allWs ws → wfList (e :: es) = true →
      (dumpsElems lvlE (e :: es)).length + 1 ≤ fuel →
      parseArrItems fuel
        (ws ++ (dumpsElems lvlE (e :: es) ++ '\n' :: (indentChars lvlC ++ ']' :: rest))) acc =
        some (acc ++ e :: es, rest)) ∧
    (∀ k v ps lvlE lvlC acc ws rest, allWs ws → wfPairs ((k, v) :: ps) = true →
      nodupKeys ((acc ++ (k, v) :: ps).map Prod.fst) = true →
      (dumpsPairs lvlE ((k, v) :: ps)).length + 1 ≤ fuel →
      parseObjItems fuel
        (ws ++ (dumpsPairs lvlE ((k, v) :: ps) ++ '\n' :: (indentChars lvlC ++ '\x7d' :: rest))) acc =
        some (acc ++ (k, v) :: ps, rest)) := by
  induction fuel with
  | zero =>
    refine ⟨?_, ?_, ?_⟩
    · intro v lvl rest _ hlen _
      have := dumps_length_pos lvl v
      omega
    · intro e es lvlE lvlC acc ws rest _ _ hlen
      omega
    · intro k v ps lvlE lvlC acc ws rest _ _ _ hlen
      omega
  | succ f ih =>
    obtain ⟨ihP, ihQ, ihR⟩ := ih
    refine ⟨?_, ?_, ?_⟩
    · -- values
      intro v lvl rest hwf hlen hnd
      cases v with
      | null => exact parseVal_null f rest
      | bool b =>
        cases b with
        | true => exact parseVal_true f rest
        | false => exact parseVal_false f rest
      | num i =>
        by_cases hi : i < 0
        · rw [show dumpsVal lvl (.num i) = intChars i from rfl, intChars, if_pos hi]
          obtain ⟨d, t, he, hd⟩ := natCharsAux_head i.natAbs i.natAbs
          have hcons : natChars i.natAbs = digitChar d :: t := he
          have hpd := parseDigits_natChars hnd i.natAbs
          rw [hcons] at hpd
          rw [hcons, show ('-' :: digitChar d :: t) ++ rest = '-' :: digitChar d :: (t ++ rest)
            from rfl, parseVal_minus f (digitChar_isDigit d hd) (t ++ rest),
            show digitChar d :: (t ++ rest) = (digitChar d :: t) ++ rest from rfl, hpd]
          have : -((i.natAbs : Nat) : Int) = i := by omega
          rw [this]
        · rw [show dumpsVal lvl (.num i) = intChars i from rfl, intChars, if_neg hi]
          obtain ⟨d, t, he, hd⟩ := natCharsAux_head i.natAbs i.natAbs
          have hcons : natChars i.natAbs = digitChar d :: t := he
          have hpd := parseDigits_natChars hnd i.natAbs
          rw [hcons] at hpd
          rw [hcons, show (digitChar d :: t) ++ rest = digitChar d :: (t ++ rest) from rfl,
            parseVal_digit f (digitChar_isDigit d hd) (t ++ rest),
            show digitChar d :: (t ++ rest) = (digitChar d :: t) ++ rest from rfl, hpd]
          have : ((i.natAbs : Nat) : Int) = i := by omega
          rw [this]
      | str s =>
        rw [show dumpsVal lvl (.str s) ++ rest =
          '"' :: (escapeString s.data ++ '"' :: rest) by
          rw [show dumpsVal lvl (.str s) = quoteString s from rfl, quoteString]; simp]
        rw [parseVal_quote f, parseStr_escapeString s.data rest f (by
          have h1 := escapeString_length s.data
          have h2 : (dumpsVal lvl (.str s)).length = (escapeString s.data).length + 2 := by
            rw [show dumpsVal lvl (.str s) = quoteString s from rfl, len_quoteString]
          omega)]
        rfl
      | arr l =>
        cases l with
        | nil =>
          rw [show dumpsVal lvl (.arr []) = ['[', ']'] by rw [dumpsVal]; rfl]
          exact parseVal_lbracket_empty f (skipWs_cons_not (by decide) rest)
        | cons e es =>
          obtain ⟨c, t, hE, hw1, hw2, hw3⟩ := dumpsElems_head (lvl + 1) e es
          rw [show dumpsVal lvl (.arr (e :: es)) ++ rest =
            '[' :: ('\n' :: (indentChars (lvl + 1) ++ (dumpsElems (lvl + 1) (e :: es) ++
              '\n' :: (indentChars lvl ++ ']' :: rest)))) by
            rw [dumpsVal, if_neg (by simp)]; simp]
          have hskip : skipWs ('\n' :: (indentChars (lvl + 1) ++ (dumpsElems (lvl + 1) (e :: es) ++
              '\n' :: (indentChars lvl ++ ']' :: rest)))) =
              c :: (t ++ '\n' :: (indentChars lvl ++ ']' :: rest)) := by
            rw [skipWs, if_pos (by decide), skipWs_append (allWs_indent _), hE,
              List.cons_append, skipWs_cons_not hw1]
          rw [parseVal_lbracket f hskip hw2]
          have hfl : (dumpsElems (lvl + 1) (e :: es)).length + 1 ≤ f := by
            have := len_dumpsVal_arr lvl e es
            omega
          have hQ := ihQ e es (lvl + 1) lvl [] [] rest allWs_nil hwf hfl
          rw [List.nil_append] at hQ
          rw [show c :: (t ++ '\n' :: (indentChars lvl ++ ']' :: rest)) =
            dumpsElems (lvl + 1) (e :: es) ++ '\n' :: (indentChars lvl ++ ']' :: rest) by
            rw [hE, List.cons_append], hQ]
          simp
      | obj l =>
        cases l with
        | nil =>
          rw [show dumpsVal lvl (.obj []) = ['\x7b', '\x7d'] by rw [dumpsVal]; rfl]
          exact parseVal_lbrace_empty f (skipWs_cons_not (by decide) rest)
        | cons p ps =>
          obtain ⟨k, v⟩ := p
          have hwfo : wfVal (.obj ((k, v) :: ps)) = true := hwf
          rw [show wfVal (.obj ((k, v) :: ps)) =
            (nodupKeys (((k, v) :: ps).map Prod.fst) && wfPairs ((k, v) :: ps)) from rfl,
            Bool.and_eq_true] at hwfo
          obtain ⟨c, t, hE, hw1, hw2, hw3⟩ := dumpsPairs_head (lvl + 1) k v ps
          rw [show dumpsVal lvl (.obj ((k, v) :: ps)) ++ rest =
            '\x7b' :: ('\n' :: (indentChars (lvl + 1) ++ (dumpsPairs (lvl + 1) ((k, v) :: ps) ++
              '\n' :: (indentChars lvl ++ '\x7d' :: rest)))) by
            rw [dumpsVal, if_neg (by simp)]; simp]
          have hskip : skipWs ('\n' :: (indentChars (lvl + 1) ++ (dumpsPairs (lvl + 1) ((k, v) :: ps) ++
              '\n' :: (indentChars lvl ++ '\x7d' :: rest)))) =
              c :: (t ++ '\n' :: (indentChars lvl ++ '\x7d' :: rest)) := by
            rw [skipWs, if_pos (by decide), skipWs_append (allWs_indent _), hE,
              List.cons_append, skipWs_cons_not hw1]
          rw [parseVal_lbrace f hskip hw3]
          have hfl : (dumpsPairs (lvl + 1) ((k, v) :: ps)).length + 1 ≤ f := by
            have := len_dumpsVal_obj lvl (k, v) ps
            omega
          have hR := ihR k v ps (lvl + 1) lvl [] [] rest allWs_nil hwfo.2
            (by simpa using hwfo.1) hfl
          rw [List.nil_append] at hR
          rw [show c :: (t ++ '\n' :: (indentChars lvl ++ '\x7d' :: rest)) =
            dumpsPairs (lvl + 1) ((k, v) :: ps) ++ '\n' :: (indentChars lvl ++ '\x7d' :: rest) by
            rw [hE, List.cons_append], hR]
          simp
    · -- array elements
      intro e es lvlE lvlC acc ws rest hws hwf hlen
      rw [show wfList (e :: es) = (wfVal e && wfList es) from rfl, Bool.and_eq_true] at hwf
      cases es with
      | nil =>
        have hv : parseVal f (ws ++ (dumpsElems lvlE [e] ++
            '\n' :: (indentChars lvlC ++ ']' :: rest))) =
            some (e, '\n' :: (indentChars lvlC ++ ']' :: rest)) := by
          rw [parseVal_ws f hws, show dumpsElems lvlE [e] = dumpsVal lvlE e from rfl]
          exact ihP e lvlE _ hwf.1
            (by rw [show (dumpsElems lvlE [e] : List Char) = dumpsVal lvlE e from rfl] at hlen; omega)
            (noDigitHead_cons _ (by decide))
        have hskip : skipWs ('\n' :: (indentChars lvlC ++ ']' :: rest)) = ']' :: rest := by
          rw [skipWs, if_pos (by decide), skipWs_append (allWs_indent _),
            skipWs_cons_not (by decide)]
        rw [parseArrItems_close f acc hv hskip]
      | cons e2 es2 =>
        have hsplit : dumpsElems lvlE (e :: e2 :: es2) ++
            '\n' :: (indentChars lvlC ++ ']' :: rest) =
            dumpsVal lvlE e ++ (',' :: ('\n' :: (indentChars lvlE ++
              (dumpsElems lvlE (e2 :: es2) ++ '\n' :: (indentChars lvlC ++ ']' :: rest))))) := by
          rw [dumpsElems]
          simp
        have hv : parseVal f (ws ++ (dumpsElems lvlE (e :: e2 :: es2) ++
            '\n' :: (indentChars lvlC ++ ']' :: rest))) =
            some (e, ',' :: ('\n' :: (indentChars lvlE ++
              (dumpsElems lvlE (e2 :: es2) ++ '\n' :: (indentChars lvlC ++ ']' :: rest))))) := by
          rw [parseVal_ws f hws, hsplit]
          exact ihP e lvlE _ hwf.1
            (by have := len_dumpsElems_cons lvlE e e2 es2; omega)
            (noDigitHead_cons _ (by decide))
        have hskip : skipWs (',' :: ('\n' :: (indentChars lvlE ++
            (dumpsElems lvlE (e2 :: es2) ++ '\n' :: (indentChars lvlC ++ ']' :: rest))))) =
            ',' :: ('\n' :: (indentChars lvlE ++
            (dumpsElems lvlE (e2 :: es2) ++ '\n' :: (indentChars lvlC ++ ']' :: rest)))) :=
          skipWs_cons_not (by decide) _
        rw [parseArrItems_comma f acc hv hskip]
        have hQ := ihQ e2 es2 lvlE lvlC (acc ++ [e]) ('\n' :: indentChars lvlE) rest
          (allWs_cons (by decide) (allWs_indent _)) hwf.2
          (by have := len_dumpsElems_cons lvlE e e2 es2; omega)
        rw [show ('\n' :: indentChars lvlE) ++ (dumpsElems lvlE (e2 :: es2) ++
            '\n' :: (indentChars lvlC ++ ']' :: rest)) =
          '\n' :: (indentChars lvlE ++ (dumpsElems lvlE (e2 :: es2) ++
            '\n' :: (indentChars lvlC ++ ']' :: rest))) from rfl] at hQ
        rw [hQ]
        simp
    · -- object members
      intro k v ps lvlE lvlC acc ws rest hws hwf hnd hlen
      rw [show wfPairs ((k, v) :: ps) = (wfVal v && wfPairs ps) from rfl,
        Bool.and_eq_true] at hwf
      have hfresh : ∀ p ∈ acc, p.1 ≠ k := by
        intro p hp
        have hmap : (acc ++ (k, v) :: ps).map Prod.fst =
            acc.map Prod.fst ++ k :: ps.map Prod.fst := by simp
        rw [hmap] at hnd
        exact nodupKeys_head_fresh hnd p.1 (List.mem_map_of_mem _ hp)
      cases ps with
      | nil =>
        have hq : skipWs (ws ++ (dumpsPairs lvlE [(k, v)] ++
            '\n' :: (indentChars lvlC ++ '\x7d' :: rest))) =
            '"' :: (escapeString k.data ++ '"' :: (':' :: (' ' :: (dumpsVal lvlE v ++
              '\n' :: (indentChars lvlC ++ '\x7d' :: rest))))) := by
          rw [skipWs_append hws, show dumpsPairs lvlE [(k, v)] ++
            '\n' :: (indentChars lvlC ++ '\x7d' :: rest) =
            '"' :: (escapeString k.data ++ '"' :: (':' :: (' ' :: (dumpsVal lvlE v ++
              '\n' :: (indentChars lvlC ++ '\x7d' :: rest))))) by
            rw [dumpsPairs, quoteString]; simp]
          exact skipWs_cons_not (by decide) _
        have hk : parseStr f (escapeString k.data ++ '"' :: (':' :: (' ' :: (dumpsVal lvlE v ++
            '\n' :: (indentChars lvlC ++ '\x7d' :: rest))))) =
            some (k.data, ':' :: (' ' :: (dumpsVal lvlE v ++
              '\n' :: (indentChars lvlC ++ '\x7d' :: rest)))) := by
          apply parseStr_escapeString
          have h1 := escapeString_length k.data
          have h2 := len_dumpsPairs_single lvlE k v
          omega
        have hc : skipWs (':' :: (' ' :: (dumpsVal lvlE v ++
            '\n' :: (indentChars lvlC ++ '\x7d' :: rest)))) =
            ':' :: (' ' :: (dumpsVal lvlE v ++
            '\n' :: (indentChars lvlC ++ '\x7d' :: rest))) :=
          skipWs_cons_not (by decide) _
        have hv : parseVal f (' ' :: (dumpsVal lvlE v ++
            '\n' :: (indentChars lvlC ++ '\x7d' :: rest))) =
            some (v, '\n' :: (indentChars lvlC ++ '\x7d' :: rest)) := by
          rw [show (' ' :: (dumpsVal lvlE v ++ '\n' :: (indentChars lvlC ++ '\x7d' :: rest)) :
              List Char) = [' '] ++ (dumpsVal lvlE v ++
              '\n' :: (indentChars lvlC ++ '\x7d' :: rest)) from rfl,
            parseVal_ws f (by intro c hc; rcases List.mem_singleton.mp hc with rfl; rfl)]
          exact ihP v lvlE _ hwf.1
            (by have := len_dumpsPairs_single lvlE k v; omega)
            (noDigitHead_cons _ (by decide))
        have hskip : skipWs ('\n' :: (indentChars lvlC ++ '\x7d' :: rest)) =
            '\x7d' :: rest := by
          rw [skipWs, if_pos (by decide), skipWs_append (allWs_indent _),
            skipWs_cons_not (by decide)]
        rw [parseObjItems_close f acc hq hk hc hv hskip,
          show String.mk k.data = k from rfl, objInsert_append v hfresh]
      | cons p2 ps2 =>
        obtain ⟨k2, v2⟩ := p2
        have hsplit : dumpsPairs lvlE ((k, v) :: (k2, v2) :: ps2) ++
            '\n' :: (indentChars lvlC ++ '\x7d' :: rest) =
            '"' :: (escapeString k.data ++ '"' :: (':' :: (' ' :: (dumpsVal lvlE v ++
              ',' :: ('\n' :: (indentChars lvlE ++ (dumpsPairs lvlE ((k2, v2) :: ps2) ++
                '\n' :: (indentChars lvlC ++ '\x7d' :: rest)))))))) := by
          rw [dumpsPairs, quoteString]
          simp
        have hq : skipWs (ws ++ (dumpsPairs lvlE ((k, v) :: (k2, v2) :: ps2) ++
            '\n' :: (indentChars lvlC ++ '\x7d' :: rest))) =
            '"' :: (escapeString k.data ++ '"' :: (':' :: (' ' :: (dumpsVal lvlE v ++
              ',' :: ('\n' :: (indentChars lvlE ++ (dumpsPairs lvlE ((k2, v2) :: ps2) ++
                '\n' :: (indentChars lvlC ++ '\x7d' :: rest)))))))) := by
          rw [skipWs_append hws, hsplit]
          exact skipWs_cons_not (by decide) _
        have hk : parseStr f (escapeString k.data ++ '"' :: (':' :: (' ' :: (dumpsVal lvlE v ++
            ',' :: ('\n' :: (indentChars lvlE ++ (dumpsPairs lvlE ((k2, v2) :: ps2) ++
              '\n' :: (indentChars lvlC ++ '\x7d' :: rest)))))))) =
            some (k.data, ':' :: (' ' :: (dumpsVal lvlE v ++
              ',' :: ('\n' :: (indentChars lvlE ++ (dumpsPairs lvlE ((k2, v2) :: ps2) ++
                '\n' :: (indentChars lvlC ++ '\x7d' :: rest))))))) := by
          apply parseStr_escapeString
          have h1 := escapeString_length k.data
          have h2 := len_dumpsPairs_cons lvlE k v (k2, v2) ps2
          omega
        have hc : skipWs (':' :: (' ' :: (dumpsVal lvlE v ++
            ',' :: ('\n' :: (indentChars lvlE ++ (dumpsPairs lvlE ((k2, v2) :: ps2) ++
              '\n' :: (indentChars lvlC ++ '\x7d' :: rest))))))) =
            ':' :: (' ' :: (dumpsVal lvlE v ++
            ',' :: ('\n' :: (indentChars lvlE ++ (dumpsPairs lvlE ((k2, v2) :: ps2) ++
              '\n' :: (indentChars lvlC ++ '\x7d' :: rest)))))) :=
          skipWs_cons_not (by decide) _
        have hv : parseVal f (' ' :: (dumpsVal lvlE v ++
            ',' :: ('\n' :: (indentChars lvlE ++ (dumpsPairs lvlE ((k2, v2) :: ps2) ++
              '\n' :: (indentChars lvlC ++ '\x7d' :: rest)))))) =
            some (v, ',' :: ('\n' :: (indentChars lvlE ++ (dumpsPairs lvlE ((k2, v2) :: ps2) ++
              '\n' :: (indentChars lvlC ++ '\x7d' :: rest))))) := by
          rw [show (' ' :: (dumpsVal lvlE v ++
              ',' :: ('\n' :: (indentChars lvlE ++ (dumpsPairs lvlE ((k2, v2) :: ps2) ++
                '\n' :: (indentChars lvlC ++ '\x7d' :: rest))))) : List Char) =
            [' '] ++ (dumpsVal lvlE v ++
              ',' :: ('\n' :: (indentChars lvlE ++ (dumpsPairs lvlE ((k2, v2) :: ps2) ++
                '\n' :: (indentChars lvlC ++ '\x7d' :: rest))))) from rfl,
            parseVal_ws f (by intro c hc; rcases List.mem_singleton.mp hc with rfl; rfl)]
          exact ihP v lvlE _ hwf.1
            (by have := len_dumpsPairs_cons lvlE k v (k2, v2) ps2; omega)
            (noDigitHead_cons _ (by decide))
        have hskip : skipWs (',' :: ('\n' :: (indentChars lvlE ++
            (dumpsPairs lvlE ((k2, v2) :: ps2) ++
              '\n' :: (indentChars lvlC ++ '\x7d' :: rest))))) =
            ',' :: ('\n' :: (indentChars lvlE ++ (dumpsPairs lvlE ((k2, v2) :: ps2) ++
              '\n' :: (indentChars lvlC ++ '\x7d' :: rest)))) :=
          skipWs_cons_not (by decide) _
        rw [parseObjItems_comma f acc hq hk hc hv hskip,
          show String.mk k.data = k from rfl, objInsert_append v hfresh]
        have hnd2 : nodupKeys (((acc ++ [(k, v)]) ++ (k2, v2) :: ps2).map Prod.fst) = true := by
          rw [show (acc ++ [(k, v)]) ++ (k2, v2) :: ps2 = acc ++ (k, v) :: (k2, v2) :: ps2
            by simp]
          exact hnd
        have hR := ihR k2 v2 ps2 lvlE lvlC (acc ++ [(k, v)]) ('\n' :: indentChars lvlE) rest
          (allWs_cons (by decide) (allWs_indent _)) hwf.2 hnd2
          (by have := len_dumpsPairs_cons lvlE k v (k2, v2) ps2; omega)
        rw [show ('\n' :: indentChars lvlE) ++ (dumpsPairs lvlE ((k2, v2) :: ps2) ++
            '\n' :: (indentChars lvlC ++ '\x7d' :: rest)) =
          '\n' :: (indentChars lvlE ++ (dumpsPairs lvlE ((k2, v2) :: ps2) ++
            '\n' :: (indentChars lvlC ++ '\x7d' :: rest))) from rfl] at hR
        rw [hR]
        simp




/-- C8: the dispatcher's text-formatting step for data-bearing results is
`dumps`; for the search tool the result text is exactly `dumps` of the
tracker's response, and for every well-formed response value parsing that
text back as JSON recovers the value — pretty-printing is lossless. -/
theorem search_result_roundtrip :
    (∀ st env args jq j, st.session = true → st.config = true →
      slookup args "jql" = some jq → slookup args "fields" = none →
      slookup args "max_results" = none →
      env ⟨"GET", "search", some (.obj [("jql", jq), ("maxResults", .num 50),
        ("fields", .str "*all")]), none⟩ = .ok j →
      (handle_call_tool st env "jira_search_issues" args).1 = [mkText (dumps j)]) ∧
    (∀ v, wfVal v = true → loads (dumps v) = some v) := by
  constructor
  · intro st env args jq j hs hc hjql hfields hmax henv
    simp [handle_call_tool, call_tool_body, item, hjql, argGet, hfields, hmax,
      search_issues, pyTruthy, make_request, hs, hc, henv]
  · intro v hwf
    have hp := (parse_dumps ((dumpsVal 0 v).length + 1)).1 v 0 [] hwf (by omega) trivial
    rw [List.append_nil] at hp
    rw [loads, show (dumps v).data = dumpsVal 0 v from rfl, hp]
    rfl

/-- Witness for C8: a concrete dispatch formats the response with `dumps`,
and a nested concrete value with negative numbers, escapes and empty
containers round-trips. -/
theorem search_result_roundtrip_witness :
    (handle_call_tool stReady
        (fun _ => .ok (.obj [("issues", .arr [])]))
        "jira_search_issues" [("jql", .str "project = P")]).1 =
      [mkText (dumps (.obj [("issues", .arr [])]))] ∧
    loads (dumps (.obj [("a", .num (-10)),
      ("b", .arr [.str "x\"y\n", .null, .bool true, .obj []])])) =
      some (.obj [("a", .num (-10)),
        ("b", .arr [.str "x\"y\n", .null, .bool true, .obj []])]) :=
  ⟨search_result_roundtrip.1 stReady _ _ (.str "project = P") (.obj [("issues", .arr [])])
      rfl rfl rfl rfl rfl rfl,
   search_result_roundtrip.2 _ (by decide)⟩


end Jira
